import Mathlib

/-!
A shallow embedding of the DNS wire-format interpreter of
`src/analyzer/protocol/dns/DNS.cc`, together with theorems checking the
specification's claims about it.

Modelling conventions:
* The message buffer is a `List Nat` of bytes; reads go through `byteAt`,
  which reduces modulo 256 (the buffer holds `u_char`s) and yields 0 out of
  range (out-of-range reads are undefined behaviour in the source; no claim
  depends on their value).
* A cursor `(data, len)` into the message is a `Cur`: `pos` is the offset of
  `data` from `msg_start` (a `Nat`: the code only moves `data` forward),
  `len` is the C `int` remaining-length counter, kept as `Int` because the
  source can in principle drive it negative.
* Event emission (`ConnectionEventFast`, `Weird`, `ProtocolViolation`,
  `ProtocolConfirmation`, `Internal`) is modelled as an ordered trace of
  `Ev` values.  An event handler that is not registered is modelled by the
  corresponding `Ctx` flag being `false`, in which case the event is not
  produced (mirroring the null `EventHandlerPtr` guards in the source).
* `ExtractName`/`ExtractLabel` recurse through compression pointers; the
  embedding indexes them with explicit fuel, and the termination theorem
  (claim C1) shows a computable fuel bound under which the decoding always
  completes.
-/

namespace DNS

/-- One byte of the message buffer (`u_char`): out-of-range reads give 0. -/
def byteAt (msg : List Nat) (i : Nat) : Nat := msg.getD i 0 % 256

/-- The bytes `data[0..n)` at offset `pos` (a `memcpy`/`BroString` copy). -/
def sliceN (msg : List Nat) (pos n : Nat) : List Nat :=
  (List.range n).map (fun i => byteAt msg (pos + i))

/-- Cursor over the message body: `pos` = `data - msg_start`, `len` = the
`int` remaining-length counter passed by reference through the parsers. -/
structure Cur where
  pos : Nat
  len : Int
deriving Repr, DecidableEq

/-- Events and diagnostics emitted while parsing, in emission order. -/
inductive Ev where
  | weird (s : String)
  | protocolViolation (s : String)
  | protocolConfirmation
  | internalError (s : String)
  | dnsMessage (isQuery : Nat)
  | dnsEnd
  | dnsRequest (qname : List Nat) (qtype qclass : Nat)
  | dnsRejected (qname : List Nat) (qtype qclass : Nat)
  | dnsQueryReply (qname : List Nat) (qtype qclass : Nat)
  | rrEvent (s : String)
  | dnsTXTReply (strs : List (List Nat))
  | dnsSPFReply (strs : List (List Nat))
deriving Repr, DecidableEq

/-- Read-only context of a parse: policy configuration, connection facts and
which event handlers are registered (a `false` flag is a null
`EventHandlerPtr`). -/
structure Ctx where
  dnsMaxQueries : Nat
  skipAllAuth : Bool
  skipAllAddl : Bool
  skipAuthAddr : Bool
  skipAddlAddr : Bool
  respPort137 : Bool
  respMulticast : Bool
  hMessage : Bool
  hEnd : Bool
  hRequest : Bool
  hRejected : Bool
  hQueryReply : Bool
  hUnknown : Bool
  hA : Bool
  hAAAA : Bool
  hA6 : Bool
  hNS : Bool
  hCNAME : Bool
  hPTR : Bool
  hSOA : Bool
  hMX : Bool
  hSRV : Bool
  hTXT : Bool
  hSPF : Bool
  hCAA : Bool
  hEDNS : Bool
  hTSIG : Bool
  hRRSIG : Bool
  hDNSKEY : Bool
  hNSEC : Bool
  hNSEC3 : Bool
  hDS : Bool
deriving Repr, DecidableEq

/-- `DNS_Interpreter::ExtractShort`: reads a big-endian u16 when at least two
bytes remain; otherwise returns 0 without touching the cursor. -/
def extractShort (msg : List Nat) (c : Cur) : Nat × Cur :=
  if c.len < 2 then (0, c)
  else (byteAt msg c.pos * 256 + byteAt msg (c.pos + 1), ⟨c.pos + 2, c.len - 2⟩)

/-- `DNS_Interpreter::ExtractLong`: reads a big-endian u32 when at least four
bytes remain; otherwise returns 0 without touching the cursor. -/
def extractLong (msg : List Nat) (c : Cur) : Nat × Cur :=
  if c.len < 4 then (0, c)
  else (byteAt msg c.pos * 16777216 + byteAt msg (c.pos + 1) * 65536 +
          byteAt msg (c.pos + 2) * 256 + byteAt msg (c.pos + 3),
        ⟨c.pos + 4, c.len - 4⟩)

/-- `DNS_Interpreter::ExtractOctets`: a u16 length prefix, clamped with
`min(len, dlen)` (computed in `int` and truncated back to `uint16`, hence the
`% 65536`), then that many bytes are copied out. -/
def extractOctets (msg : List Nat) (c : Cur) : List Nat × Cur :=
  let r := extractShort msg c
  let c1 := r.2
  let dlen : Nat := ((min c1.len (r.1 : Int)) % 65536).toNat
  (sliceN msg c1.pos dlen, ⟨c1.pos + dlen, c1.len - dlen⟩)

/-- `DNS_Interpreter::ExtractStream`: clamps the requested length to
`[0, len]` and copies that many bytes.  (With a negative `len` the source
would move `data` backwards; the embedding's `Nat` position clamps at the
current offset, a state no caller in the source reaches.) -/
def extractStream (msg : List Nat) (c : Cur) (l : Int) : List Nat × Cur :=
  let dlen : Int := min c.len (max l 0)
  (sliceN msg c.pos dlen.toNat, ⟨c.pos + dlen.toNat, c.len - dlen⟩)

/-- State threaded through `ExtractLabel`/`ExtractName`: the cursor, the
contents of the caller's name buffer so far, and the remaining buffer space
`name_len`. -/
structure NState where
  cur : Cur
  name : List Nat
  nameLen : Int
deriving Repr, DecidableEq

/-- `tolower` on an ASCII `u_char`, as done label-wise by `ExtractName`. -/
def lowerByte (b : Nat) : Nat := if 65 ≤ b ∧ b ≤ 90 then b + 32 else b

mutual

/-- `DNS_Interpreter::ExtractLabel`, fuel-indexed (`none` = out of fuel).
Returns `true` to continue the label loop, `false` to stop. -/
def extractLabelF : Nat → Ctx → List Nat → NState → Option (Bool × NState × List Ev)
  | 0, _, _, _ => none
  | f + 1, ctx, msg, st =>
    if st.cur.len ≤ 0 then some (false, st, [])
    else
      let p := st.cur.pos
      let labelLen := byteAt msg p
      let c1 : Cur := ⟨p + 1, st.cur.len - 1⟩
      if c1.len ≤ 0 then some (false, ⟨c1, st.name, st.nameLen⟩, [])
      else if labelLen = 0 then some (false, ⟨c1, st.name, st.nameLen⟩, [])
      else if labelLen &&& 192 = 192 then
        let offset := (labelLen &&& 63) * 256 + byteAt msg c1.pos
        let c2 : Cur := ⟨c1.pos + 1, c1.len - 1⟩
        if p ≤ offset then
          some (false, ⟨c2, st.name, st.nameLen⟩,
                [Ev.weird "DNS_label_forward_compress_offset"])
        else
          (extractNameF f ctx msg ⟨⟨offset, (p : Int) - (offset : Int)⟩, st.name, st.nameLen⟩).map
            (fun r =>
              (false,
               ⟨c2, r.1.name,
                st.nameLen - ((r.1.name.length : Int) - (st.name.length : Int))⟩,
               r.2))
      else if (labelLen : Int) > c1.len then
        some (false, ⟨⟨c1.pos + c1.len.toNat, 0⟩, st.name, st.nameLen⟩,
              [Ev.weird "DNS_label_len_gt_pkt"])
      else if 63 < labelLen ∧ ctx.respPort137 = false then
        some (false, ⟨c1, st.name, st.nameLen⟩, [Ev.weird "DNS_label_too_long"])
      else if (labelLen : Int) ≥ st.nameLen then
        some (false, ⟨c1, st.name, st.nameLen⟩, [Ev.weird "DNS_label_len_gt_name_len"])
      else
        some (true,
              ⟨⟨c1.pos + labelLen, c1.len - labelLen⟩,
               st.name ++ sliceN msg c1.pos labelLen ++ [46],
               st.nameLen - ((labelLen : Int) + 1)⟩,
              [])

/-- The `while ( ExtractLabel(...) );` loop of `ExtractName`. -/
def extractNameLoopF : Nat → Ctx → List Nat → NState → Option (NState × List Ev)
  | 0, _, _, _ => none
  | f + 1, ctx, msg, st =>
    match extractLabelF f ctx msg st with
    | none => none
    | some (false, st', tr) => some (st', tr)
    | some (true, st', tr) =>
      (extractNameLoopF f ctx msg st').map (fun r => (r.1, tr ++ r.2))

/-- `DNS_Interpreter::ExtractName`, fuel-indexed: runs the label loop, then
flags names of 255 bytes or more, strips a trailing dot and lowercases the
part of the buffer this call wrote (from entry length `n0` on).  The source
always returns a non-null buffer pointer, so there is no failure outcome
besides fuel exhaustion. -/
def extractNameF : Nat → Ctx → List Nat → NState → Option (NState × List Ev)
  | 0, _, _, _ => none
  | f + 1, ctx, msg, st =>
    let n0 := st.name.length
    (extractNameLoopF f ctx msg st).map (fun r =>
      let st' := r.1
      let tr := r.2
      let n := st'.name.length - n0
      let tr2 := if 255 ≤ n then tr ++ [Ev.weird "DNS_NAME_too_long"] else tr
      let name2 := if 2 ≤ n ∧ st'.name.getLastD 0 = 46 then st'.name.dropLast else st'.name
      let name3 := name2.take n0 ++ (name2.drop n0).map lowerByte
      (⟨st'.cur, name3, st'.nameLen⟩, tr2))

end

/-- Measure of a decoding state: the end position `data + len` of the cursor,
relative to `msg_start`.  Compression is only allowed strictly backwards, so
this strictly decreases across every pointer recursion. -/
def stEnd (st : NState) : Nat := st.cur.pos + st.cur.len.toNat

/-- Fuel that suffices for `extractNameF` on any state whose `stEnd` is at
most `e` (proved in `extract_isSome`). -/
def nameNeed : Nat → Nat
  | 0 => 3
  | 1 => 4
  | e + 2 => (e + 2) + 3 + nameNeed e

/-- Fuel that suffices for `extractLabelF` at `stEnd ≤ e`. -/
def labelNeed (e : Nat) : Nat := if e < 2 then 1 else 1 + nameNeed (e - 2)

/-- Fuel that suffices for `extractNameLoopF` at `stEnd ≤ e`. -/
def loopNeed (e : Nat) : Nat := (e + 1) + labelNeed e

/-- `ExtractName` as the parsers call it: the fuel-indexed decoder run with
the sufficient fuel bound for its state. -/
def extractName (ctx : Ctx) (msg : List Nat) (st : NState) : Option (NState × List Ev) :=
  extractNameF (nameNeed (stEnd st)) ctx msg st

/-- Per-message parse state `DNS_MsgInfo`: header fields plus the scratch
fields the record parsers overwrite (`query_name`, `atype`, `aclass`, `ttl`,
`answer_type`, `skip_event`). -/
structure MsgInfo where
  mid : Nat
  QR : Bool
  opcode : Nat
  AA : Bool
  TC : Bool
  RD : Bool
  RA : Bool
  Z : Nat
  rcode : Nat
  qdcount : Nat
  ancount : Nat
  nscount : Nat
  arcount : Nat
  isQuery : Nat
  queryName : List Nat
  atype : Nat
  aclass : Nat
  ttl : Nat
  answerType : Nat
  skipEvent : Bool
deriving Repr, DecidableEq

/-- The `DNS_MsgInfo` constructor: decodes the 12-byte big-endian header in
place.  `atype` starts as `TYPE_ALL` (255). -/
def msgInfoOfHeader (msg : List Nat) (isQuery : Nat) : MsgInfo :=
  let flags := byteAt msg 2 * 256 + byteAt msg 3
  { mid := byteAt msg 0 * 256 + byteAt msg 1
    QR := decide (flags &&& 32768 ≠ 0)
    opcode := (flags &&& 30720) >>> 11
    AA := decide (flags &&& 1024 ≠ 0)
    TC := decide (flags &&& 512 ≠ 0)
    RD := decide (flags &&& 256 ≠ 0)
    RA := decide (flags &&& 128 ≠ 0)
    Z := (flags &&& 112) >>> 4
    rcode := flags &&& 15
    qdcount := byteAt msg 4 * 256 + byteAt msg 5
    ancount := byteAt msg 6 * 256 + byteAt msg 7
    nscount := byteAt msg 8 * 256 + byteAt msg 9
    arcount := byteAt msg 10 * 256 + byteAt msg 11
    isQuery := isQuery
    queryName := []
    atype := 255
    aclass := 0
    ttl := 0
    answerType := 0
    skipEvent := false }

/-- Result of a record/question parser: the `int` status, the advanced
cursor, and the events emitted. -/
structure RRRes where
  status : Bool
  cur : Cur
  evs : List Ev
deriving Repr, DecidableEq

/-- Result of `ParseAnswer`/`ParseAnswers`: also carries the mutated
`DNS_MsgInfo`. -/
structure ARes where
  status : Bool
  m : MsgInfo
  cur : Cur
  evs : List Ev
deriving Repr, DecidableEq

/-- Result of `extract_char_string`: the string when one was read (`none`
both at the end of rdata and on the past-rdlen anomaly), plus the advanced
cursor and remaining rdlength. -/
structure CSRes where
  str : Option (List Nat)
  cur : Cur
  rdlen : Int
  evs : List Ev
deriving Repr, DecidableEq

/-- `extract_char_string`: one length-prefixed character string of a
TXT/SPF rdata.  The length byte is consumed before the bound check, so the
anomaly path has already advanced the cursor and `rdlen` by one. -/
def extractCharString (msg : List Nat) (c : Cur) (rdlen : Int) : CSRes :=
  if rdlen ≤ 0 then ⟨none, c, rdlen, []⟩
  else
    let strSize := byteAt msg c.pos
    let rd1 := rdlen - 1
    let c1 : Cur := ⟨c.pos + 1, c.len - 1⟩
    if (strSize : Int) > rd1 then
      ⟨none, c1, rd1, [Ev.weird "DNS_TXT_char_str_past_rdlen"]⟩
    else
      ⟨some (sliceN msg c1.pos strSize), ⟨c1.pos + strSize, c1.len - strSize⟩,
       rd1 - strSize, []⟩

lemma extractCharString_some_rdlen {msg c rdlen s c' r' tr}
    (h : extractCharString msg c rdlen = ⟨some s, c', r', tr⟩) :
    r'.toNat < rdlen.toNat := by
  unfold extractCharString at h
  split at h
  · simp at h
  · dsimp only at h
    split at h
    · simp at h
    · rename_i h0 hsz
      simp only [CSRes.mk.injEq] at h
      omega

/-- Accumulated result of the TXT/SPF character-string loop. -/
structure TxtRes where
  cur : Cur
  rdlen : Int
  strs : List (List Nat)
  evs : List Ev
deriving Repr, DecidableEq

/-- The `while ( (char_string = extract_char_string(...)) )` loop of
`ParseRR_TXT`/`ParseRR_SPF`. -/
def txtLoop (msg : List Nat) (c : Cur) (rdlen : Int) (acc : List (List Nat)) : TxtRes :=
  match h : extractCharString msg c rdlen with
  | ⟨some s, c', rdlen', tr⟩ =>
    let r := txtLoop msg c' rdlen' (acc ++ [s])
    ⟨r.cur, r.rdlen, r.strs, tr ++ r.evs⟩
  | ⟨none, c', rdlen', tr⟩ => ⟨c', rdlen', acc, tr⟩
termination_by rdlen.toNat
decreasing_by exact extractCharString_some_rdlen h

/-- Whether the TXT/SPF character-string loop hits the
`DNS_TXT_char_str_past_rdlen` anomaly on this rdata. -/
def txtHitsWeird (msg : List Nat) (c : Cur) (rdlen : Int) : Bool :=
  if rdlen ≤ 0 then false
  else
    let strSize := byteAt msg c.pos
    if (strSize : Int) > rdlen - 1 then true
    else txtHitsWeird msg ⟨c.pos + 1 + strSize, c.len - 1 - strSize⟩ (rdlen - 1 - strSize)
termination_by rdlen.toNat
decreasing_by omega

/-- The type-bitmap loop shared by `ParseRR_NSEC` and `ParseRR_NSEC3`
(`w` is the weird name used when a bitmap length of zero appears). -/
def nsecBitmapLoop (msg : List Nat) (w : String) (c : Cur) (tbl : Int)
    (acc : List (List Nat)) : Cur × List (List Nat) × List Ev :=
  if 0 < tbl ∧ 0 < c.len then
    let r := extractShort msg c
    let bmlen := r.1 % 256
    if bmlen = 0 then (r.2, acc, [Ev.weird w])
    else
      let s := extractStream msg r.2 (bmlen : Int)
      nsecBitmapLoop msg w s.2 (tbl - (2 + (bmlen : Int))) (acc ++ [s.1])
  else (c, acc, [])
termination_by tbl.toNat
decreasing_by omega

/-- Weird notices `ParseRR_RRSIG`/`ParseRR_DNSKEY` emit per DNSSEC zone-sign
algorithm.  Modelled from the spec: the `DNSSEC_Algo` enum lives in `DNS.h`
(not under `src/`); the numeric values follow the IANA assignments the spec
names (RSA_MD5=1 ... ECDSA_curveP384withSHA384=14, Indirect=252,
PrivateDNS=253, PrivateOID=254). -/
def dnssecAlgoEvs (pre : String) (algo : Nat) : List Ev :=
  if algo = 1 then [Ev.weird (pre ++ "_NotRecommended_ZoneSignAlgo")]
  else if algo = 2 ∨ algo = 3 ∨ algo = 4 ∨ algo = 5 ∨ algo = 6 ∨ algo = 7 ∨
          algo = 8 ∨ algo = 10 ∨ algo = 12 ∨ algo = 13 ∨ algo = 14 then []
  else if algo = 252 then [Ev.weird (pre ++ "_Indirect_ZoneSignAlgo")]
  else if algo = 253 then [Ev.weird (pre ++ "_PrivateDNS_ZoneSignAlgo")]
  else if algo = 254 then [Ev.weird (pre ++ "_PrivateOID_ZoneSignAlgo")]
  else [Ev.weird (pre ++ "_unknown_ZoneSignAlgo")]

/-- Weird notices `ParseRR_DS` emits per digest type (`DNSSEC_Digest` enum,
modelled from the spec: SHA1=1, SHA256=2, GOST=3, SHA384=4, reserved=0). -/
def dsDigestEvs (dtype : Nat) : List Ev :=
  if dtype = 1 ∨ dtype = 2 ∨ dtype = 3 ∨ dtype = 4 then []
  else if dtype = 0 then [Ev.weird "DNSSEC_DS_ResrevedDigestType"]
  else [Ev.weird "DNSSEC_DS_unknown_DigestType"]

/-- `DNS_Interpreter::ParseRR_A`. -/
def parseRR_A (ctx : Ctx) (msg : List Nat) (m : MsgInfo) (c : Cur) (rdlength : Nat) : RRRes :=
  if rdlength ≠ 4 then ⟨false, c, [Ev.weird "DNS_RR_bad_length"]⟩
  else
    let r := extractLong msg c
    ⟨true, r.2, if ctx.hA ∧ m.skipEvent = false then [Ev.rrEvent "dns_A_reply"] else []⟩

/-- `DNS_Interpreter::ParseRR_AAAA` (also handles `TYPE_A6`). -/
def parseRR_AAAA (ctx : Ctx) (msg : List Nat) (m : MsgInfo) (c : Cur) (rdlength : Nat) : RRRes :=
  let negWeird := if m.atype = 28 then "DNS_AAAA_neg_length" else "DNS_A6_neg_length"
  let r1 := extractLong msg c
  if r1.2.len < 0 then ⟨false, r1.2, [Ev.weird negWeird]⟩ else
  let r2 := extractLong msg r1.2
  if r2.2.len < 0 then ⟨false, r2.2, [Ev.weird negWeird]⟩ else
  let r3 := extractLong msg r2.2
  if r3.2.len < 0 then ⟨false, r3.2, [Ev.weird negWeird]⟩ else
  let r4 := extractLong msg r3.2
  if r4.2.len < 0 then ⟨false, r4.2, [Ev.weird negWeird]⟩ else
  let hOn := if m.atype = 28 then ctx.hAAAA else ctx.hA6
  let evName := if m.atype = 28 then "dns_AAAA_reply" else "dns_A6_reply"
  ⟨true, r4.2, if hOn ∧ m.skipEvent = false then [Ev.rrEvent evName] else []⟩

/-- `DNS_Interpreter::ParseRR_Name` (NS/CNAME/PTR; CNAME also covers the
AAAA/A6 routing noted in the source). -/
def parseRR_Name (ctx : Ctx) (msg : List Nat) (m : MsgInfo) (c : Cur) (rdlength : Nat) : RRRes :=
  match extractName ctx msg ⟨c, [], 512⟩ with
  | none => ⟨false, c, []⟩
  | some (st, tr) =>
    let mism := if ((st.cur.pos : Int) - (c.pos : Int)) ≠ (rdlength : Int) then
                  [Ev.weird "DNS_RR_length_mismatch"] else []
    let evs :=
      if m.atype = 2 then
        (if ctx.hNS ∧ m.skipEvent = false then [Ev.rrEvent "dns_NS_reply"] else [])
      else if m.atype = 5 ∨ m.atype = 28 ∨ m.atype = 38 then
        (if ctx.hCNAME ∧ m.skipEvent = false then [Ev.rrEvent "dns_CNAME_reply"] else [])
      else if m.atype = 12 then
        (if ctx.hPTR ∧ m.skipEvent = false then [Ev.rrEvent "dns_PTR_reply"] else [])
      else [Ev.internalError "DNS_RR_bad_name"]
    ⟨true, st.cur, tr ++ mism ++ evs⟩

/-- `DNS_Interpreter::ParseRR_SOA`. -/
def parseRR_SOA (ctx : Ctx) (msg : List Nat) (m : MsgInfo) (c : Cur) (rdlength : Nat) : RRRes :=
  match extractName ctx msg ⟨c, [], 512⟩ with
  | none => ⟨false, c, []⟩
  | some (st1, tr1) =>
    match extractName ctx msg ⟨st1.cur, [], 512⟩ with
    | none => ⟨false, st1.cur, tr1⟩
    | some (st2, tr2) =>
      if st2.cur.len < 20 then ⟨false, st2.cur, tr1 ++ tr2⟩
      else
        let r1 := extractLong msg st2.cur
        let r2 := extractLong msg r1.2
        let r3 := extractLong msg r2.2
        let r4 := extractLong msg r3.2
        let r5 := extractLong msg r4.2
        let mism := if ((r5.2.pos : Int) - (c.pos : Int)) ≠ (rdlength : Int) then
                      [Ev.weird "DNS_RR_length_mismatch"] else []
        let evs := if ctx.hSOA ∧ m.skipEvent = false then [Ev.rrEvent "dns_SOA_reply"] else []
        ⟨true, r5.2, tr1 ++ tr2 ++ mism ++ evs⟩

/-- `DNS_Interpreter::ParseRR_MX`. -/
def parseRR_MX (ctx : Ctx) (msg : List Nat) (m : MsgInfo) (c : Cur) (rdlength : Nat) : RRRes :=
  let rp := extractShort msg c
  match extractName ctx msg ⟨rp.2, [], 512⟩ with
  | none => ⟨false, rp.2, []⟩
  | some (st, tr) =>
    let mism := if ((st.cur.pos : Int) - (c.pos : Int)) ≠ (rdlength : Int) then
                  [Ev.weird "DNS_RR_length_mismatch"] else []
    let evs := if ctx.hMX ∧ m.skipEvent = false then [Ev.rrEvent "dns_MX_reply"] else []
    ⟨true, st.cur, tr ++ mism ++ evs⟩

/-- `DNS_Interpreter::ParseRR_NBS`: payload skipped. -/
def parseRR_NBS (ctx : Ctx) (msg : List Nat) (m : MsgInfo) (c : Cur) (rdlength : Nat) : RRRes :=
  ⟨true, ⟨c.pos + rdlength, c.len - rdlength⟩, []⟩

/-- `DNS_Interpreter::ParseRR_WKS`: payload skipped. -/
def parseRR_WKS (ctx : Ctx) (msg : List Nat) (m : MsgInfo) (c : Cur) (rdlength : Nat) : RRRes :=
  ⟨true, ⟨c.pos + rdlength, c.len - rdlength⟩, []⟩

/-- `DNS_Interpreter::ParseRR_HINFO`: payload skipped. -/
def parseRR_HINFO (ctx : Ctx) (msg : List Nat) (m : MsgInfo) (c : Cur) (rdlength : Nat) : RRRes :=
  ⟨true, ⟨c.pos + rdlength, c.len - rdlength⟩, []⟩

/-- `DNS_Interpreter::ParseRR_SRV` (the non-NetBIOS branch). -/
def parseRR_SRV (ctx : Ctx) (msg : List Nat) (m : MsgInfo) (c : Cur) (rdlength : Nat) : RRRes :=
  let r1 := extractShort msg c
  let r2 := extractShort msg r1.2
  let r3 := extractShort msg r2.2
  match extractName ctx msg ⟨r3.2, [], 512⟩ with
  | none => ⟨false, r3.2, []⟩
  | some (st, tr) =>
    let mism := if ((st.cur.pos : Int) - (c.pos : Int)) ≠ (rdlength : Int) then
                  [Ev.weird "DNS_RR_length_mismatch"] else []
    let evs := if ctx.hSRV ∧ m.skipEvent = false then [Ev.rrEvent "dns_SRV_reply"] else []
    ⟨true, st.cur, tr ++ mism ++ evs⟩

/-- `DNS_Interpreter::ParseRR_EDNS`: emits the synthetic additional record,
then skips the rdata. -/
def parseRR_EDNS (ctx : Ctx) (msg : List Nat) (m : MsgInfo) (c : Cur) (rdlength : Nat) : RRRes :=
  let evs := if ctx.hEDNS ∧ m.skipEvent = false then [Ev.rrEvent "dns_EDNS_addl"] else []
  let c' := if 0 < rdlength then Cur.mk (c.pos + rdlength) (c.len - rdlength) else c
  ⟨true, c', evs⟩

/-- `DNS_Interpreter::ParseRR_TSIG`.  Note the event is gated on the handler
only, not on `skip_event`, and nothing ties consumption to `rdlength`. -/
def parseRR_TSIG (ctx : Ctx) (msg : List Nat) (m : MsgInfo) (c : Cur) (rdlength : Nat) : RRRes :=
  match extractName ctx msg ⟨c, [], 1023⟩ with
  | none => ⟨false, c, []⟩
  | some (st, tr) =>
    let r1 := extractLong msg st.cur
    let r2 := extractShort msg r1.2
    let r3 := extractShort msg r2.2
    let r4 := extractOctets msg r3.2
    let r5 := extractShort msg r4.2
    let r6 := extractShort msg r5.2
    let r7 := extractOctets msg r6.2
    ⟨true, r7.2, tr ++ (if ctx.hTSIG then [Ev.rrEvent "dns_TSIG_addl"] else [])⟩

/-- `DNS_Interpreter::ParseRR_RRSIG`. -/
def parseRR_RRSIG (ctx : Ctx) (msg : List Nat) (m : MsgInfo) (c : Cur) (rdlength : Nat) : RRRes :=
  if ctx.hRRSIG = false ∨ m.skipEvent = true then
    ⟨true, ⟨c.pos + rdlength, c.len - rdlength⟩, []⟩
  else if c.len < 18 then ⟨false, c, []⟩
  else
    let r1 := extractShort msg c
    let r2 := extractShort msg r1.2
    let algo := r2.1 / 256
    let r3 := extractLong msg r2.2
    let r4 := extractLong msg r3.2
    let r5 := extractLong msg r4.2
    let r6 := extractShort msg r5.2
    match extractName ctx msg ⟨r6.2, [], 512⟩ with
    | none => ⟨false, r6.2, []⟩
    | some (st, tr) =>
      let sigLen : Int := (rdlength : Int) - (((st.cur.pos : Int) - (r6.2.pos : Int)) + 18)
      let s := extractStream msg st.cur sigLen
      ⟨true, s.2,
       tr ++ dnssecAlgoEvs "DNSSEC_RRSIG" algo ++
         (if ctx.hRRSIG then [Ev.rrEvent "dns_RRSIG"] else [])⟩

/-- `DNS_Interpreter::ParseRR_DNSKEY`. -/
def parseRR_DNSKEY (ctx : Ctx) (msg : List Nat) (m : MsgInfo) (c : Cur) (rdlength : Nat) : RRRes :=
  if ctx.hDNSKEY = false ∨ m.skipEvent = true then
    ⟨true, ⟨c.pos + rdlength, c.len - rdlength⟩, []⟩
  else if c.len < 4 then ⟨false, c, []⟩
  else
    let r1 := extractShort msg c
    let r2 := extractShort msg r1.2
    let dproto := r2.1 / 256
    let dalgo := r2.1 % 256
    let s := extractStream msg r2.2 ((rdlength : Int) - 4)
    let w1 := if r1.1 &&& 65150 ≠ 0 then [Ev.weird "DNSSEC_DNSKEY_Invalid_Flag"] else []
    let w2 := if r1.1 &&& 385 = 385 then [Ev.weird "DNSSEC_DNSKEY_Revoked_KSK"] else []
    let w3 := if dproto ≠ 3 then [Ev.weird "DNSSEC_DNSKEY_Invalid_Protocol"] else []
    ⟨true, s.2,
     w1 ++ w2 ++ w3 ++ dnssecAlgoEvs "DNSSEC_DNSKEY" dalgo ++
       (if ctx.hDNSKEY then [Ev.rrEvent "dns_DNSKEY"] else [])⟩

/-- `DNS_Interpreter::ParseRR_NSEC`. -/
def parseRR_NSEC (ctx : Ctx) (msg : List Nat) (m : MsgInfo) (c : Cur) (rdlength : Nat) : RRRes :=
  if ctx.hNSEC = false ∨ m.skipEvent = true then
    ⟨true, ⟨c.pos + rdlength, c.len - rdlength⟩, []⟩
  else
    match extractName ctx msg ⟨c, [], 512⟩ with
    | none => ⟨false, c, []⟩
    | some (st, tr) =>
      let tbl : Int := (rdlength : Int) - ((st.cur.pos : Int) - (c.pos : Int))
      let r := nsecBitmapLoop msg "DNSSEC_NSEC_bitmapLen0" st.cur tbl []
      ⟨true, r.1, tr ++ r.2.2 ++ (if ctx.hNSEC then [Ev.rrEvent "dns_NSEC"] else [])⟩

/-- `DNS_Interpreter::ParseRR_NSEC3`. -/
def parseRR_NSEC3 (ctx : Ctx) (msg : List Nat) (m : MsgInfo) (c : Cur) (rdlength : Nat) : RRRes :=
  if ctx.hNSEC3 = false ∨ m.skipEvent = true then
    ⟨true, ⟨c.pos + rdlength, c.len - rdlength⟩, []⟩
  else if c.len < 6 then ⟨false, c, []⟩
  else
    let r1 := extractShort msg c
    let r2 := extractShort msg r1.2
    let saltLen := if 0 < r2.2.len then byteAt msg r2.2.pos else 0
    let c3 : Cur := if 0 < r2.2.len then ⟨r2.2.pos + 1, r2.2.len - 1⟩ else r2.2
    let s1 := extractStream msg c3 (saltLen : Int)
    let hashLen := if 0 < s1.2.len then byteAt msg s1.2.pos else 0
    let c4 : Cur := if 0 < s1.2.len then ⟨s1.2.pos + 1, s1.2.len - 1⟩ else s1.2
    let s2 := extractStream msg c4 (hashLen : Int)
    let tbl : Int := (rdlength : Int) - ((s2.2.pos : Int) - (c.pos : Int))
    let r := nsecBitmapLoop msg "DNSSEC_NSEC3_bitmapLen0" s2.2 tbl []
    ⟨true, r.1, r.2.2 ++ (if ctx.hNSEC3 then [Ev.rrEvent "dns_NSEC3"] else [])⟩

/-- `DNS_Interpreter::ParseRR_DS`. -/
def parseRR_DS (ctx : Ctx) (msg : List Nat) (m : MsgInfo) (c : Cur) (rdlength : Nat) : RRRes :=
  if ctx.hDS = false ∨ m.skipEvent = true then
    ⟨true, ⟨c.pos + rdlength, c.len - rdlength⟩, []⟩
  else if c.len < 4 then ⟨false, c, []⟩
  else
    let r1 := extractShort msg c
    let r2 := extractShort msg r1.2
    let dtype := r2.1 % 256
    let s := extractStream msg r2.2 ((rdlength : Int) - 4)
    ⟨true, s.2, dsDigestEvs dtype ++ (if ctx.hDS then [Ev.rrEvent "dns_DS"] else [])⟩

/-- `DNS_Interpreter::ParseRR_TXT`. -/
def parseRR_TXT (ctx : Ctx) (msg : List Nat) (m : MsgInfo) (c : Cur) (rdlength : Nat) : RRRes :=
  if ctx.hTXT = false ∨ m.skipEvent = true then
    ⟨true, ⟨c.pos + rdlength, c.len - rdlength⟩, []⟩
  else
    let r := txtLoop msg c (rdlength : Int) []
    ⟨decide (r.rdlen = 0), r.cur,
     r.evs ++ (if ctx.hTXT then [Ev.dnsTXTReply r.strs] else [])⟩

/-- `DNS_Interpreter::ParseRR_SPF`. -/
def parseRR_SPF (ctx : Ctx) (msg : List Nat) (m : MsgInfo) (c : Cur) (rdlength : Nat) : RRRes :=
  if ctx.hSPF = false ∨ m.skipEvent = true then
    ⟨true, ⟨c.pos + rdlength, c.len - rdlength⟩, []⟩
  else
    let r := txtLoop msg c (rdlength : Int) []
    ⟨decide (r.rdlen = 0), r.cur,
     r.evs ++ (if ctx.hSPF then [Ev.dnsSPFReply r.strs] else [])⟩

/-- `DNS_Interpreter::ParseRR_CAA`. -/
def parseRR_CAA (ctx : Ctx) (msg : List Nat) (m : MsgInfo) (c : Cur) (rdlength : Nat) : RRRes :=
  if ctx.hCAA = false ∨ m.skipEvent = true then
    ⟨true, ⟨c.pos + rdlength, c.len - rdlength⟩, []⟩
  else
    let r1 := extractShort msg c
    let tagLen := r1.1 % 256
    let rd1 : Int := (rdlength : Int) - 2
    if (tagLen : Int) ≥ rd1 then ⟨false, r1.2, [Ev.weird "DNS_CAA_char_str_past_rdlen"]⟩
    else
      let c2 : Cur := ⟨r1.2.pos + tagLen, r1.2.len - tagLen⟩
      let rd2 : Int := rd1 - tagLen
      let value := sliceN msg c2.pos rd2.toNat
      let c3 : Cur := ⟨c2.pos + value.length, c2.len - (value.length : Int)⟩
      let rd3 : Int := rd2 - (value.length : Int)
      ⟨decide (rd3 = 0), c3, if ctx.hCAA then [Ev.rrEvent "dns_CAA_reply"] else []⟩

/-- The RR-type `switch` of `DNS_Interpreter::ParseAnswer`.  Modelled from
the spec for the numeric `TYPE_*` codes, which are declared in `DNS.h`
(outside `src/`): A=1, NS=2, CNAME=5, SOA=6, WKS=11, PTR=12, HINFO=13,
MX=15, TXT=16, AAAA=28, NBS=32, SRV=33, A6=38, EDNS=41, DS=43, RRSIG=46,
NSEC=47, DNSKEY=48, NSEC3=50, SPF=99, TSIG=250, CAA=257. -/
def parseRRDispatch (ctx : Ctx) (msg : List Nat) (m : MsgInfo) (c : Cur) (rdlength : Nat) : RRRes :=
  if m.atype = 1 then parseRR_A ctx msg m c rdlength
  else if m.atype = 28 ∨ m.atype = 38 then parseRR_AAAA ctx msg m c rdlength
  else if m.atype = 2 ∨ m.atype = 5 ∨ m.atype = 12 then parseRR_Name ctx msg m c rdlength
  else if m.atype = 6 then parseRR_SOA ctx msg m c rdlength
  else if m.atype = 11 then parseRR_WKS ctx msg m c rdlength
  else if m.atype = 13 then parseRR_HINFO ctx msg m c rdlength
  else if m.atype = 15 then parseRR_MX ctx msg m c rdlength
  else if m.atype = 16 then parseRR_TXT ctx msg m c rdlength
  else if m.atype = 99 then parseRR_SPF ctx msg m c rdlength
  else if m.atype = 257 then parseRR_CAA ctx msg m c rdlength
  else if m.atype = 32 then parseRR_NBS ctx msg m c rdlength
  else if m.atype = 33 then
    -- NBSTAT when the responder port is 137: "We aren't parsing this yet."
    if ctx.respPort137 = true then ⟨true, c, []⟩
    else parseRR_SRV ctx msg m c rdlength
  else if m.atype = 41 then parseRR_EDNS ctx msg m c rdlength
  else if m.atype = 250 then parseRR_TSIG ctx msg m c rdlength
  else if m.atype = 46 then parseRR_RRSIG ctx msg m c rdlength
  else if m.atype = 48 then parseRR_DNSKEY ctx msg m c rdlength
  else if m.atype = 47 then parseRR_NSEC ctx msg m c rdlength
  else if m.atype = 50 then parseRR_NSEC3 ctx msg m c rdlength
  else if m.atype = 43 then parseRR_DS ctx msg m c rdlength
  else
    ⟨true, ⟨c.pos + rdlength, c.len - rdlength⟩,
     (if ctx.hUnknown ∧ m.skipEvent = false then [Ev.rrEvent "dns_unknown_reply"] else []) ++
       [Ev.weird "DNS_RR_unknown_type"]⟩

/-- `DNS_Interpreter::ParseAnswer`: the shared record prelude (owner name,
type, class, ttl, rdlength, truncation check) followed by the dispatch. -/
def parseAnswer (ctx : Ctx) (msg : List Nat) (m : MsgInfo) (c : Cur) : ARes :=
  match extractName ctx msg ⟨c, [], 512⟩ with
  | none => ⟨false, m, c, []⟩
  | some (st, tr) =>
    if st.cur.len < 4 then ⟨false, m, st.cur, tr ++ [Ev.weird "DNS_truncated_ans_too_short"]⟩
    else
      let r1 := extractShort msg st.cur
      let r2 := extractShort msg r1.2
      let r3 := extractLong msg r2.2
      let r4 := extractShort msg r3.2
      let m' := { m with queryName := st.name, atype := r1.1, aclass := r2.1, ttl := r3.1 }
      let rdlength := r4.1
      if (rdlength : Int) > r4.2.len then
        ⟨false, m', r4.2, tr ++ [Ev.weird "DNS_truncated_RR_rdlength_lt_len"]⟩
      else
        let rr := parseRRDispatch ctx msg m' r4.2 rdlength
        ⟨rr.status, m', rr.cur, tr ++ rr.evs⟩

/-- The `while ( n > 0 && ParseAnswer(...) )` loop of `ParseAnswers`. -/
def parseAnswersGo (ctx : Ctx) (msg : List Nat) : Nat → MsgInfo → Cur → ARes
  | 0, m, c => ⟨true, m, c, []⟩
  | n + 1, m, c =>
    let r := parseAnswer ctx msg m c
    if r.status then
      let r2 := parseAnswersGo ctx msg n r.m r.cur
      ⟨r2.status, r2.m, r2.cur, r.evs ++ r2.evs⟩
    else ⟨false, r.m, r.cur, r.evs⟩

/-- `DNS_Interpreter::ParseAnswers`: sets the section's `answer_type`, then
parses `n` records. -/
def parseAnswers (ctx : Ctx) (msg : List Nat) (m : MsgInfo) (n : Nat) (atype : Nat) (c : Cur) : ARes :=
  parseAnswersGo ctx msg n { m with answerType := atype } c

/-- `DNS_Interpreter::ParseQuestion`: a name followed by qtype/qclass.  The
dispatch event (chosen per header QR bit and RR counts) is emitted for every
question whose chosen handler is registered and whose section is not
skipped; both branches consume the two u16s. -/
def parseQuestion (ctx : Ctx) (msg : List Nat) (m : MsgInfo) (c : Cur) : RRRes :=
  match extractName ctx msg ⟨c, [], 512⟩ with
  | none => ⟨false, c, []⟩
  | some (st, tr) =>
    if st.cur.len < 4 then ⟨false, st.cur, tr ++ [Ev.weird "DNS_truncated_quest_too_short"]⟩
    else
      let rejected := m.QR = true ∧ m.ancount = 0 ∧ m.nscount = 0 ∧ m.arcount = 0
      let handlerOn := if m.QR = false then ctx.hRequest
                       else if rejected then ctx.hRejected
                       else ctx.hQueryReply
      let r1 := extractShort msg st.cur
      let r2 := extractShort msg r1.2
      if handlerOn = true ∧ m.skipEvent = false then
        let ev := if m.QR = false then Ev.dnsRequest st.name r1.1 r2.1
                  else if rejected then Ev.dnsRejected st.name r1.1 r2.1
                  else Ev.dnsQueryReply st.name r1.1 r2.1
        ⟨true, r2.2, tr ++ [ev]⟩
      else ⟨true, r2.2, tr⟩

/-- The `while ( n > 0 && ParseQuestion(...) )` loop of `ParseQuestions`. -/
def parseQuestionsGo (ctx : Ctx) (msg : List Nat) (m : MsgInfo) : Nat → Cur → RRRes
  | 0, c => ⟨true, c, []⟩
  | n + 1, c =>
    let r := parseQuestion ctx msg m c
    if r.status then
      let r2 := parseQuestionsGo ctx msg m n r.cur
      ⟨r2.status, r2.cur, r.evs ++ r2.evs⟩
    else ⟨false, r.cur, r.evs⟩

/-- `DNS_Interpreter::ParseQuestions`. -/
def parseQuestions (ctx : Ctx) (msg : List Nat) (m : MsgInfo) (c : Cur) : RRRes :=
  parseQuestionsGo ctx msg m m.qdcount c

/-- `DNS_Interpreter::EndMessage`: the `dns_end` event when its handler is
registered. -/
def endMessage (ctx : Ctx) : List Ev := if ctx.hEnd then [Ev.dnsEnd] else []

/-- Result of one `ParseMessage` call: the return value, the emitted trace,
whether `FlipRoles` was called, and the `first_message` flag afterwards. -/
structure PMOut where
  ret : Bool
  evs : List Ev
  flip : Bool
  fmAfter : Bool
deriving Repr, DecidableEq

/-- `DNS_Interpreter::ParseMessage`.  `firstMessage` is the interpreter's
`first_message` state on entry; `isQuery` the caller's 0/1/2 flag. -/
def parseMessage (ctx : Ctx) (firstMessage : Bool) (msg : List Nat) (isQuery : Nat) : PMOut :=
  if msg.length < 12 then
    ⟨false, [Ev.weird "DNS_truncated_len_lt_hdr_len"], false, firstMessage⟩
  else
    let m0 := msgInfoOfHeader msg isQuery
    let flipPath := firstMessage = true ∧ m0.QR = true ∧ isQuery = 1
    let m1 := if flipPath then { m0 with isQuery := 0 } else m0
    let iq := if flipPath then 0 else isQuery
    let doFlip := decide (flipPath ∧ ctx.respMulticast = false)
    let evMsg := if ctx.hMessage then [Ev.dnsMessage iq] else []
    if 0 < ctx.dnsMaxQueries ∧ ctx.dnsMaxQueries < m1.qdcount then
      ⟨false,
       evMsg ++ [Ev.protocolViolation "DNS_Conn_count_too_large",
                 Ev.weird "DNS_Conn_count_too_large"] ++ endMessage ctx,
       doFlip, false⟩
    else
      let c0 : Cur := ⟨12, (msg.length : Int) - 12⟩
      let q := parseQuestions ctx msg m1 c0
      if q.status = false then ⟨false, evMsg ++ q.evs ++ endMessage ctx, doFlip, false⟩
      else
        let a := parseAnswers ctx msg m1 m1.ancount 1 q.cur
        if a.status = false then
          ⟨false, evMsg ++ q.evs ++ a.evs ++ endMessage ctx, doFlip, false⟩
        else
          let conf := [Ev.protocolConfirmation]
          let skipAuth := ctx.skipAllAuth = true ∨
            (0 < m1.ancount ∧ (m1.nscount = 0 ∨ ctx.skipAuthAddr = true))
          let skipAddl := ctx.skipAllAddl = true ∨
            (0 < m1.ancount ∧ (m1.arcount = 0 ∨ ctx.skipAddlAddr = true))
          if skipAuth ∧ skipAddl then
            ⟨true, evMsg ++ q.evs ++ a.evs ++ conf ++ endMessage ctx, doFlip, false⟩
          else
            let m2 := { a.m with skipEvent := decide skipAuth }
            let ns := parseAnswers ctx msg m2 m1.nscount 2 a.cur
            if ns.status = false then
              ⟨false, evMsg ++ q.evs ++ a.evs ++ conf ++ ns.evs ++ endMessage ctx, doFlip, false⟩
            else if skipAddl then
              ⟨true, evMsg ++ q.evs ++ a.evs ++ conf ++ ns.evs ++ endMessage ctx, doFlip, false⟩
            else
              let m3 := { ns.m with skipEvent := decide skipAddl }
              let ar := parseAnswers ctx msg m3 m1.arcount 3 ns.cur
              ⟨ar.status, evMsg ++ q.evs ++ a.evs ++ conf ++ ns.evs ++ ar.evs ++ endMessage ctx,
               doFlip, false⟩

/-- A sequence of messages delivered to one interpreter (one connection):
returns, per message, whether `FlipRoles` was called for it. -/
def runMessages (ctx : Ctx) : Bool → List (List Nat × Nat) → List Bool
  | _, [] => []
  | fm, (msg, iq) :: rest =>
    let r := parseMessage ctx fm msg iq
    r.flip :: runMessages ctx r.fmAfter rest

/-- Whether an event is one of the three per-question dispatch events. -/
def isQEv : Ev → Bool
  | .dnsRequest _ _ _ => true
  | .dnsRejected _ _ _ => true
  | .dnsQueryReply _ _ _ => true
  | _ => false

/-- A context with every handler registered, no query ceiling, no skips of
the authority/additional sections beyond the source defaults
(`skip_all_DNS_auth` and friends model the active skip policy), a
non-NetBIOS responder port and a unicast responder. -/
def ctxAll : Ctx :=
  ⟨0, true, true, false, false, false, false,
   true, true, true, true, true, true, true, true, true, true, true, true,
   true, true, true, true, true, true, true, true, true, true, true, true, true⟩

/-- `ctxAll` on a connection whose responder port is 137 (NetBIOS). -/
def ctx137 : Ctx := { ctxAll with respPort137 := true }

/-- `ctxAll` with `dns_max_queries = 25`, the scripts' default ceiling. -/
def ctxCap : Ctx := { ctxAll with dnsMaxQueries := 25 }

/-- A concrete `DNS_MsgInfo` as every question of a query sees it
(`QR = 0`, all counts irrelevant, `skip_event = 0`). -/
def mQuery : MsgInfo :=
  ⟨0, false, 0, false, false, false, false, 0, 0, 1, 0, 0, 0, 1, [], 1, 1, 0, 0, false⟩

/-- `mQuery` flipped to a response carrying one answer RR of TYPE_TXT. -/
def mTXT : MsgInfo := { mQuery with QR := true, isQuery := 0, ancount := 1, atype := 16 }

/-- One response message: header with `ancount = 1`, a root owner name, an
RR of TYPE_SRV (33) with class 1, TTL 0, `rdlength = 2` and two rdata
bytes.  On a port-137 connection the dispatch treats it as NBSTAT. -/
def msgNB : List Nat :=
  [0, 0, 0, 0, 0, 0, 0, 1, 0, 0, 0, 0, 0, 0, 33, 0, 1, 0, 0, 0, 0, 0, 2, 9, 9]

/-- One query whose question name starts with the compression pointer
`c0 20`: offset `0x20 = 32` is past the pointer's own position 12. -/
def msgFwd : List Nat :=
  [0, 0, 0, 0, 0, 1, 0, 0, 0, 0, 0, 0, 192, 32, 0, 1, 0, 1]

/-- A bare header declaring `qdcount = 26` (over a ceiling of 25). -/
def msgCap : List Nat := [0, 0, 0, 0, 0, 26, 0, 0, 0, 0, 0, 0]

/-- A query with `qdcount = 2` and two well-formed questions (root name,
qtype 1, qclass 1 each). -/
def msgTwoQ : List Nat :=
  [0, 0, 0, 0, 0, 2, 0, 0, 0, 0, 0, 0, 0, 0, 1, 0, 1, 0, 0, 1, 0, 1]

/-- A bare 12-byte header whose QR bit is set and all counts are zero. -/
def hdrResp : List Nat := [0, 0, 128, 0, 0, 0, 0, 0, 0, 0, 0, 0]

lemma isSome_map {α β : Type _} (f : α → β) (x : Option α) :
    (x.map f).isSome = x.isSome := by cases x <;> rfl

lemma labelNeed_pos (e : Nat) : 1 ≤ labelNeed e := by
  unfold labelNeed; split <;> omega

lemma nameNeed_eq (e : Nat) : nameNeed e = 1 + loopNeed e := by
  match e with
  | 0 => rfl
  | 1 => rfl
  | e + 2 => simp [nameNeed, loopNeed, labelNeed]; omega

/-- A label-loop iteration that continues has consumed at least two cursor
bytes and kept the cursor's end position `data + len`. -/
lemma extractLabelF_true_spec {f : Nat} {ctx msg st st' tr}
    (h : extractLabelF f ctx msg st = some (true, st', tr)) :
    st'.cur.pos + st'.cur.len.toNat = st.cur.pos + st.cur.len.toNat ∧
    st'.cur.len.toNat + 2 ≤ st.cur.len.toNat := by
  match f with
  | 0 => simp [extractLabelF] at h
  | f + 1 =>
    unfold extractLabelF at h
    dsimp only at h
    split at h
    · simp at h
    split at h
    · simp at h
    split at h
    · simp at h
    split at h
    · -- compression-pointer branch: stops (returns false) in all sub-cases
      split at h
      · simp at h
      · simp [Option.map_eq_some'] at h
    split at h
    · simp at h
    split at h
    · simp at h
    split at h
    · simp at h
    · rename_i h1 h2 h3 h4 h5 h6 h7
      simp only [Option.some.injEq, Prod.mk.injEq] at h
      obtain ⟨-, hst, -⟩ := h
      subst hst
      dsimp only
      omega

/-- Fuel sufficiency for the label decoder: below `stEnd ≤ e`, the fuel
amounts `labelNeed e`, `loopNeed e`, `nameNeed e` are enough for
`ExtractLabel`, its loop, and `ExtractName` respectively. -/
lemma extract_isSome : ∀ e ctx msg,
    (∀ st, stEnd st ≤ e → ∀ f, labelNeed e ≤ f →
      (extractLabelF f ctx msg st).isSome = true) ∧
    (∀ st, stEnd st ≤ e → ∀ f, loopNeed e ≤ f →
      (extractNameLoopF f ctx msg st).isSome = true) ∧
    (∀ st, stEnd st ≤ e → ∀ f, nameNeed e ≤ f →
      (extractNameF f ctx msg st).isSome = true) := by
  intro e
  induction e using Nat.strong_induction_on with
  | _ e IH =>
    intro ctx msg
    have hlabel : ∀ st, stEnd st ≤ e → ∀ f, labelNeed e ≤ f →
        (extractLabelF f ctx msg st).isSome = true := by
      intro st hE f hf
      have hf1 : 1 ≤ f := le_trans (labelNeed_pos e) hf
      obtain ⟨f', rfl⟩ : ∃ f', f = f' + 1 := ⟨f - 1, by omega⟩
      unfold extractLabelF
      dsimp only
      split
      · rfl
      split
      · rfl
      split
      · rfl
      split
      · split
        · rfl
        · -- the pointer recursion: strictly smaller end position
          rename_i h1 h2 h3 h4 h5
          have he2 : 2 ≤ e := by unfold stEnd at hE; omega
          rw [isSome_map]
          refine (IH (e - 2) (by omega) ctx msg).2.2 _ ?_ f' ?_
          · unfold stEnd at hE ⊢
            dsimp only
            omega
          · have hln : labelNeed e = 1 + nameNeed (e - 2) := by
              unfold labelNeed
              rw [if_neg (by omega)]
            omega
      split
      · rfl
      split
      · rfl
      split
      · rfl
      · rfl
    have hloop : ∀ l st, stEnd st ≤ e → st.cur.len.toNat ≤ l →
        ∀ f, l + 1 + labelNeed e ≤ f →
        (extractNameLoopF f ctx msg st).isSome = true := by
      intro l
      induction l with
      | zero =>
        intro st hE hl f hf
        obtain ⟨f', rfl⟩ : ∃ f', f = f' + 1 := ⟨f - 1, by omega⟩
        unfold extractNameLoopF
        have hls := hlabel st hE f' (by omega)
        cases hv : extractLabelF f' ctx msg st with
        | none => rw [hv] at hls; simp at hls
        | some v =>
          obtain ⟨b, st', tr⟩ := v
          cases b
          · rfl
          · have := extractLabelF_true_spec hv
            omega
      | succ l ihl =>
        intro st hE hl f hf
        obtain ⟨f', rfl⟩ : ∃ f', f = f' + 1 := ⟨f - 1, by omega⟩
        unfold extractNameLoopF
        have hls := hlabel st hE f' (by omega)
        cases hv : extractLabelF f' ctx msg st with
        | none => rw [hv] at hls; simp at hls
        | some v =>
          obtain ⟨b, st', tr⟩ := v
          cases b
          · rfl
          · have hspec := extractLabelF_true_spec hv
            have h2 := ihl st' (by unfold stEnd at hE ⊢; omega) (by omega) f' (by omega)
            simpa only [isSome_map] using h2
    have hloopTop : ∀ st, stEnd st ≤ e → ∀ f, loopNeed e ≤ f →
        (extractNameLoopF f ctx msg st).isSome = true := by
      intro st hE f hf
      exact hloop e st hE (by unfold stEnd at hE; omega) f (by unfold loopNeed at hf; omega)
    refine ⟨hlabel, hloopTop, ?_⟩
    intro st hE f hf
    rw [nameNeed_eq] at hf
    obtain ⟨f', rfl⟩ : ∃ f', f = f' + 1 := ⟨f - 1, by omega⟩
    unfold extractNameF
    dsimp only
    rw [isSome_map]
    exact hloopTop st hE f' (by omega)

/-- Traces that consist of weird notices only. -/
def weirdOnly (tr : List Ev) : Prop := ∀ e ∈ tr, ∃ s, e = Ev.weird s

lemma weirdOnly_nil : weirdOnly [] := by intro e he; cases he

lemma weirdOnly_single (s : String) : weirdOnly [Ev.weird s] := by
  intro e he
  simp only [List.mem_singleton] at he
  exact ⟨s, he⟩

lemma weirdOnly_append {a b : List Ev} (ha : weirdOnly a) (hb : weirdOnly b) :
    weirdOnly (a ++ b) := by
  intro e he
  rcases List.mem_append.mp he with h | h
  · exact ha e h
  · exact hb e h

/-- The label decoder emits weird notices only (no sink events). -/
lemma extract_trace_weird : ∀ f ctx msg,
    (∀ st b st' tr, extractLabelF f ctx msg st = some (b, st', tr) → weirdOnly tr) ∧
    (∀ st st' tr, extractNameLoopF f ctx msg st = some (st', tr) → weirdOnly tr) ∧
    (∀ st st' tr, extractNameF f ctx msg st = some (st', tr) → weirdOnly tr) := by
  intro f
  induction f with
  | zero =>
    intro ctx msg
    refine ⟨?_, ?_, ?_⟩
    · intro st b st' tr h; simp [extractLabelF] at h
    · intro st st' tr h; simp [extractNameLoopF] at h
    · intro st st' tr h; simp [extractNameF] at h
  | succ f ih =>
    intro ctx msg
    refine ⟨?_, ?_, ?_⟩
    · intro st b st' tr h
      unfold extractLabelF at h
      dsimp only at h
      split at h
      · simp only [Option.some.injEq, Prod.mk.injEq] at h
        obtain ⟨-, -, htr⟩ := h; subst htr; exact weirdOnly_nil
      split at h
      · simp only [Option.some.injEq, Prod.mk.injEq] at h
        obtain ⟨-, -, htr⟩ := h; subst htr; exact weirdOnly_nil
      split at h
      · simp only [Option.some.injEq, Prod.mk.injEq] at h
        obtain ⟨-, -, htr⟩ := h; subst htr; exact weirdOnly_nil
      split at h
      · split at h
        · simp only [Option.some.injEq, Prod.mk.injEq] at h
          obtain ⟨-, -, htr⟩ := h; subst htr; exact weirdOnly_single _
        · rw [Option.map_eq_some'] at h
          obtain ⟨r, hX, hg⟩ := h
          simp only [Prod.mk.injEq] at hg
          obtain ⟨-, -, htr⟩ := hg; subst htr
          exact (ih ctx msg).2.2 _ r.1 r.2 (by rw [← hX])
      split at h
      · simp only [Option.some.injEq, Prod.mk.injEq] at h
        obtain ⟨-, -, htr⟩ := h; subst htr; exact weirdOnly_single _
      split at h
      · simp only [Option.some.injEq, Prod.mk.injEq] at h
        obtain ⟨-, -, htr⟩ := h; subst htr; exact weirdOnly_single _
      split at h
      · simp only [Option.some.injEq, Prod.mk.injEq] at h
        obtain ⟨-, -, htr⟩ := h; subst htr; exact weirdOnly_single _
      · simp only [Option.some.injEq, Prod.mk.injEq] at h
        obtain ⟨-, -, htr⟩ := h; subst htr; exact weirdOnly_nil
    · intro st st' tr h
      unfold extractNameLoopF at h
      split at h
      · simp at h
      · rename_i st1 tr1 heq
        simp only [Option.some.injEq, Prod.mk.injEq] at h
        obtain ⟨-, htr⟩ := h; subst htr
        exact (ih ctx msg).1 st false st1 tr1 heq
      · rename_i st1 tr1 heq
        rw [Option.map_eq_some'] at h
        obtain ⟨r, hX, hg⟩ := h
        simp only [Prod.mk.injEq] at hg
        obtain ⟨-, htr⟩ := hg; subst htr
        exact weirdOnly_append ((ih ctx msg).1 st true st1 tr1 heq)
          ((ih ctx msg).2.1 st1 r.1 r.2 (by rw [← hX]))
    · intro st st' tr h
      unfold extractNameF at h
      dsimp only at h
      rw [Option.map_eq_some'] at h
      obtain ⟨r, hX, hg⟩ := h
      simp only [Prod.mk.injEq] at hg
      obtain ⟨-, htr⟩ := hg; subst htr
      have hr := (ih ctx msg).2.1 st r.1 r.2 (by rw [← hX])
      split
      · exact weirdOnly_append hr (weirdOnly_single _)
      · exact hr

lemma extractName_weirdOnly {ctx msg st st' tr}
    (h : extractName ctx msg st = some (st', tr)) : weirdOnly tr :=
  (extract_trace_weird _ ctx msg).2.2 st st' tr h

lemma weirdOnly_count_end {tr : List Ev} (h : weirdOnly tr) :
    tr.count Ev.dnsEnd = 0 := by
  induction tr with
  | nil => rfl
  | cons e t ih =>
    obtain ⟨s, rfl⟩ := h e (List.mem_cons_self e t)
    have ht : weirdOnly t := fun x hx => h x (List.mem_cons_of_mem _ hx)
    simp [List.count_cons, ih ht]

lemma weirdOnly_count_q {tr : List Ev} (h : weirdOnly tr) :
    tr.countP isQEv = 0 := by
  induction tr with
  | nil => rfl
  | cons e t ih =>
    obtain ⟨s, rfl⟩ := h e (List.mem_cons_self e t)
    have ht : weirdOnly t := fun x hx => h x (List.mem_cons_of_mem _ hx)
    simp [List.countP_cons, ih ht, isQEv]

lemma byteAt_lt (msg : List Nat) (i : Nat) : byteAt msg i < 256 :=
  Nat.mod_lt _ (by norm_num)

lemma sliceN_length (msg : List Nat) (p n : Nat) : (sliceN msg p n).length = n := by
  simp [sliceN]

lemma sliceN_congr {msg1 msg2 : List Nat} {p n : Nat}
    (h : ∀ i : Nat, i < n → byteAt msg1 (p + i) = byteAt msg2 (p + i)) :
    sliceN msg1 p n = sliceN msg2 p n := by
  unfold sliceN
  apply List.map_congr_left
  intro a ha
  exact h a (List.mem_range.mp ha)

lemma extractShort_lt {msg : List Nat} {c : Cur} (h : c.len < 2) :
    extractShort msg c = (0, c) := by
  unfold extractShort
  exact if_pos h

lemma extractShort_ge {msg : List Nat} {c : Cur} (h : ¬c.len < 2) :
    extractShort msg c =
      (byteAt msg c.pos * 256 + byteAt msg (c.pos + 1), ⟨c.pos + 2, c.len - 2⟩) := by
  unfold extractShort
  exact if_neg h

lemma extractLong_lt {msg : List Nat} {c : Cur} (h : c.len < 4) :
    extractLong msg c = (0, c) := by
  unfold extractLong
  exact if_pos h

lemma extractLong_ge {msg : List Nat} {c : Cur} (h : ¬c.len < 4) :
    extractLong msg c =
      (byteAt msg c.pos * 16777216 + byteAt msg (c.pos + 1) * 65536 +
         byteAt msg (c.pos + 2) * 256 + byteAt msg (c.pos + 3),
       ⟨c.pos + 4, c.len - 4⟩) := by
  unfold extractLong
  exact if_neg h

lemma extractShort_agree {msg1 msg2 : List Nat} {c : Cur}
    (hag : ∀ i : Nat, (i : Int) < c.len → byteAt msg1 (c.pos + i) = byteAt msg2 (c.pos + i)) :
    extractShort msg1 c = extractShort msg2 c := by
  by_cases h : c.len < 2
  · rw [extractShort_lt h, extractShort_lt h]
  · rw [extractShort_ge h, extractShort_ge h]
    have h0 := hag 0 (by omega)
    have h1 := hag 1 (by omega)
    simp only [Nat.add_zero] at h0
    rw [h0, h1]

lemma extractLong_agree {msg1 msg2 : List Nat} {c : Cur}
    (hag : ∀ i : Nat, (i : Int) < c.len → byteAt msg1 (c.pos + i) = byteAt msg2 (c.pos + i)) :
    extractLong msg1 c = extractLong msg2 c := by
  by_cases h : c.len < 4
  · rw [extractLong_lt h, extractLong_lt h]
  · rw [extractLong_ge h, extractLong_ge h]
    have h0 := hag 0 (by omega)
    have h1 := hag 1 (by omega)
    have h2 := hag 2 (by omega)
    have h3 := hag 3 (by omega)
    simp only [Nat.add_zero] at h0
    rw [h0, h1, h2, h3]

lemma extractOctets_agree {msg1 msg2 : List Nat} {c : Cur} (h0 : 0 ≤ c.len)
    (hag : ∀ i : Nat, (i : Int) < c.len → byteAt msg1 (c.pos + i) = byteAt msg2 (c.pos + i)) :
    extractOctets msg1 c = extractOctets msg2 c := by
  unfold extractOctets
  rw [extractShort_agree hag]
  by_cases h : c.len < 2
  · rw [extractShort_lt h]
    dsimp only
    have hm : min c.len ((0 : Nat) : Int) = 0 := by
      simp only [Nat.cast_zero]
      omega
    rw [hm]
    simp [sliceN]
  · rw [extractShort_ge h]
    dsimp only
    congr 1
    apply sliceN_congr
    intro i hi
    have hb0 := byteAt_lt msg2 c.pos
    have hb1 := byteAt_lt msg2 (c.pos + 1)
    have hdl : ((min (c.len - 2) ((byteAt msg2 c.pos * 256 + byteAt msg2 (c.pos + 1) : Nat) : Int))
        % 65536) = min (c.len - 2) ((byteAt msg2 c.pos * 256 + byteAt msg2 (c.pos + 1) : Nat) : Int) := by
      apply Int.emod_eq_of_lt
      · push_cast
        omega
      · push_cast
        omega
    rw [hdl] at hi
    have hi2 : (i : Int) + 2 < c.len := by
      have hle : min (c.len - 2) ((byteAt msg2 c.pos * 256 + byteAt msg2 (c.pos + 1) : Nat) : Int)
          ≤ c.len - 2 := min_le_left _ _
      omega
    have hh := hag (2 + i) (by omega)
    calc byteAt msg1 (c.pos + 2 + i) = byteAt msg1 (c.pos + (2 + i)) := by rw [Nat.add_assoc]
      _ = byteAt msg2 (c.pos + (2 + i)) := hh
      _ = byteAt msg2 (c.pos + 2 + i) := by rw [Nat.add_assoc]

lemma extractStream_agree {msg1 msg2 : List Nat} {c : Cur} (l : Int)
    (hag : ∀ i : Nat, (i : Int) < c.len → byteAt msg1 (c.pos + i) = byteAt msg2 (c.pos + i)) :
    extractStream msg1 c l = extractStream msg2 c l := by
  unfold extractStream
  dsimp only
  congr 1
  apply sliceN_congr
  intro i hi
  apply hag
  have : (min c.len (max l 0)) ≤ c.len := min_le_left _ _
  omega

lemma extractShort_nonneg {msg : List Nat} {c : Cur} (h0 : 0 ≤ c.len) :
    0 ≤ (extractShort msg c).2.len := by
  by_cases h : c.len < 2
  · rw [extractShort_lt h]; exact h0
  · rw [extractShort_ge h]; dsimp only; omega

lemma extractLong_nonneg {msg : List Nat} {c : Cur} (h0 : 0 ≤ c.len) :
    0 ≤ (extractLong msg c).2.len := by
  by_cases h : c.len < 4
  · rw [extractLong_lt h]; exact h0
  · rw [extractLong_ge h]; dsimp only; omega

lemma extractOctets_nonneg {msg : List Nat} {c : Cur} (h0 : 0 ≤ c.len) :
    0 ≤ (extractOctets msg c).2.len := by
  unfold extractOctets
  by_cases h : c.len < 2
  · rw [extractShort_lt h]
    dsimp only
    have hm : min c.len ((0 : Nat) : Int) = 0 := by simp; omega
    rw [hm]
    simp
    omega
  · rw [extractShort_ge h]
    dsimp only
    have hv : (0 : Int) ≤ byteAt msg c.pos * 256 + byteAt msg (c.pos + 1) := by positivity
    have hm : 0 ≤ min (c.len - 2) ((byteAt msg c.pos * 256 + byteAt msg (c.pos + 1) : Nat) : Int) := by
      push_cast
      omega
    have hlt : min (c.len - 2) ((byteAt msg c.pos * 256 + byteAt msg (c.pos + 1) : Nat) : Int) < 65536 := by
      have := byteAt_lt msg c.pos
      have := byteAt_lt msg (c.pos + 1)
      push_cast
      omega
    rw [Int.emod_eq_of_lt hm hlt]
    push_cast
    omega

lemma extractStream_nonneg {msg : List Nat} {c : Cur} (l : Int) (h0 : 0 ≤ c.len) :
    0 ≤ (extractStream msg c l).2.len := by
  unfold extractStream
  dsimp only
  have h1 : min c.len (max l 0) ≤ c.len := min_le_left _ _
  have h2 : 0 ≤ min c.len (max l 0) := le_min h0 (le_max_right _ _)
  omega

lemma txtHitsWeird_stop {msg c rdlen} (h : rdlen ≤ 0) :
    txtHitsWeird msg c rdlen = false := by
  rw [txtHitsWeird]
  exact if_pos h

lemma txtHitsWeird_hit {msg : List Nat} {c rdlen} (h0 : ¬rdlen ≤ 0)
    (h : ((byteAt msg c.pos : Nat) : Int) > rdlen - 1) :
    txtHitsWeird msg c rdlen = true := by
  rw [txtHitsWeird]
  rw [if_neg h0]
  exact if_pos h

lemma txtHitsWeird_step {msg : List Nat} {c rdlen} (h0 : ¬rdlen ≤ 0)
    (h : ¬((byteAt msg c.pos : Nat) : Int) > rdlen - 1) :
    txtHitsWeird msg c rdlen =
      txtHitsWeird msg ⟨c.pos + 1 + byteAt msg c.pos, c.len - 1 - (byteAt msg c.pos : Int)⟩
        (rdlen - 1 - (byteAt msg c.pos : Int)) := by
  conv_lhs => rw [txtHitsWeird]
  rw [if_neg h0]
  exact if_neg h

/-- The TXT/SPF loop: rdata offset and remaining `rdlen` advance in
lockstep, `rdlen` never goes negative, and the trace is exactly one
past-rdlen weird when the loop hits one, else empty. -/
lemma txtLoop_spec (msg : List Nat) : ∀ k (rdlen : Int), rdlen.toNat ≤ k → 0 ≤ rdlen →
    ∀ c acc,
    0 ≤ (txtLoop msg c rdlen acc).rdlen ∧
    (txtLoop msg c rdlen acc).rdlen ≤ rdlen ∧
    (txtLoop msg c rdlen acc).cur.pos + (txtLoop msg c rdlen acc).rdlen.toNat
      = c.pos + rdlen.toNat ∧
    (txtLoop msg c rdlen acc).evs =
      (if txtHitsWeird msg c rdlen = true then [Ev.weird "DNS_TXT_char_str_past_rdlen"]
       else []) := by
  intro k
  induction k with
  | zero =>
    intro rdlen hk h0 c acc
    rw [txtLoop]
    split
    next s c' r' tr heq =>
      exfalso
      have := extractCharString_some_rdlen heq
      omega
    next c' r' tr heq =>
      unfold extractCharString at heq
      rw [if_pos (by omega : rdlen ≤ 0)] at heq
      simp only [CSRes.mk.injEq, true_and] at heq
      obtain ⟨hc, hr, htr⟩ := heq
      subst hc; subst hr; subst htr
      rw [txtHitsWeird_stop (by omega)]
      dsimp only
      refine ⟨by omega, by omega, by omega, by simp⟩
  | succ k ih =>
    intro rdlen hk h0 c acc
    rw [txtLoop]
    split
    next s c' r' tr heq =>
      unfold extractCharString at heq
      split at heq
      · simp at heq
      · dsimp only at heq
        split at heq
        · simp at heq
        · rename_i hle hsz
          simp only [CSRes.mk.injEq, Option.some.injEq] at heq
          obtain ⟨hs, hcur, hr, htr⟩ := heq
          have hcp := congrArg Cur.pos hcur
          have hcl := congrArg Cur.len hcur
          dsimp only at hcp hcl
          have h0' : 0 ≤ r' := by omega
          have hk' : r'.toNat ≤ k := by omega
          obtain ⟨ha, hb, hc2, hd⟩ := ih r' hk' h0' c' (acc ++ [s])
          have hits : txtHitsWeird msg c rdlen = txtHitsWeird msg c' r' := by
            rw [txtHitsWeird_step hle hsz, hcur, hr]
          dsimp only
          subst htr
          refine ⟨by omega, by omega, by omega, ?_⟩
          rw [hits]
          simpa using hd
    next c' r' tr heq =>
      unfold extractCharString at heq
      split at heq
      · rename_i hle
        simp only [CSRes.mk.injEq, true_and] at heq
        obtain ⟨hc, hr, htr⟩ := heq
        subst hc; subst hr; subst htr
        rw [txtHitsWeird_stop hle]
        dsimp only
        refine ⟨by omega, by omega, by omega, by simp⟩
      · dsimp only at heq
        split at heq
        · rename_i hle hsz
          simp only [CSRes.mk.injEq, true_and] at heq
          obtain ⟨hcur, hr, htr⟩ := heq
          subst hcur; subst hr; subst htr
          rw [txtHitsWeird_hit hle hsz]
          dsimp only
          refine ⟨by omega, by omega, by omega, by simp⟩
        · simp at heq

lemma adv_parseRR_A {ctx : Ctx} {msg : List Nat} {m : MsgInfo} {c : Cur} {rd : Nat} (h : (rd : Int) ≤ c.len) :
    ∀ c' tr, parseRR_A ctx msg m c rd = ⟨true, c', tr⟩ → c'.pos = c.pos + rd := by
  intro c' tr hP
  unfold parseRR_A at hP
  split at hP
  · simp at hP
  · rename_i h4
    have h4' : rd = 4 := by omega
    rw [extractLong_ge (by omega)] at hP
    simp only [RRRes.mk.injEq] at hP
    obtain ⟨-, hc, -⟩ := hP
    rw [← hc]
    dsimp only
    omega

lemma adv_parseRR_Name {ctx : Ctx} {msg : List Nat} {m : MsgInfo} {c : Cur} {rd : Nat} :
    ∀ c' tr, parseRR_Name ctx msg m c rd = ⟨true, c', tr⟩ →
      c'.pos = c.pos + rd ∨ Ev.weird "DNS_RR_length_mismatch" ∈ tr := by
  intro c' tr hP
  unfold parseRR_Name at hP
  split at hP
  · simp at hP
  next st tr0 heq =>
    dsimp only at hP
    simp only [RRRes.mk.injEq] at hP
    obtain ⟨-, hc, htr⟩ := hP
    by_cases hm : ((st.cur.pos : Int) - (c.pos : Int)) ≠ (rd : Int)
    · right
      rw [← htr, if_pos hm]
      simp
    · left
      rw [← hc]
      omega

lemma adv_parseRR_SOA {ctx : Ctx} {msg : List Nat} {m : MsgInfo} {c : Cur} {rd : Nat} :
    ∀ c' tr, parseRR_SOA ctx msg m c rd = ⟨true, c', tr⟩ →
      c'.pos = c.pos + rd ∨ Ev.weird "DNS_RR_length_mismatch" ∈ tr := by
  intro c' tr hP
  unfold parseRR_SOA at hP
  split at hP
  · simp at hP
  next st1 tr1 heq1 =>
    split at hP
    · simp at hP
    next st2 tr2 heq2 =>
      split at hP
      · simp at hP
      · dsimp only at hP
        simp only [RRRes.mk.injEq] at hP
        obtain ⟨-, hc, htr⟩ := hP
        by_cases hm : (((extractLong msg (extractLong msg (extractLong msg (extractLong msg
            (extractLong msg st2.cur).2).2).2).2).2.pos : Int) - (c.pos : Int)) ≠ (rd : Int)
        · right
          rw [← htr, if_pos hm]
          simp
        · left
          rw [← hc]
          omega

lemma adv_parseRR_MX {ctx : Ctx} {msg : List Nat} {m : MsgInfo} {c : Cur} {rd : Nat} :
    ∀ c' tr, parseRR_MX ctx msg m c rd = ⟨true, c', tr⟩ →
      c'.pos = c.pos + rd ∨ Ev.weird "DNS_RR_length_mismatch" ∈ tr := by
  intro c' tr hP
  unfold parseRR_MX at hP
  dsimp only at hP
  split_ifs at hP
  · split at hP
    · simp at hP
    next st tr0 heq =>
      simp only [RRRes.mk.injEq] at hP
      obtain ⟨-, hc, htr⟩ := hP
      by_cases hm : ((st.cur.pos : Int) - (c.pos : Int)) ≠ (rd : Int)
      · right
        rw [← htr, if_pos hm]
        simp
      · left
        rw [← hc]
        omega
  · split at hP
    · simp at hP
    next st tr0 heq =>
      simp only [RRRes.mk.injEq] at hP
      obtain ⟨-, hc, htr⟩ := hP
      by_cases hm : ((st.cur.pos : Int) - (c.pos : Int)) ≠ (rd : Int)
      · right
        rw [← htr, if_pos hm]
        simp
      · left
        rw [← hc]
        omega

lemma adv_parseRR_SRV {ctx : Ctx} {msg : List Nat} {m : MsgInfo} {c : Cur} {rd : Nat} :
    ∀ c' tr, parseRR_SRV ctx msg m c rd = ⟨true, c', tr⟩ →
      c'.pos = c.pos + rd ∨ Ev.weird "DNS_RR_length_mismatch" ∈ tr := by
  intro c' tr hP
  unfold parseRR_SRV at hP
  dsimp only at hP
  split_ifs at hP
  · split at hP
    · simp at hP
    next st tr0 heq =>
      simp only [RRRes.mk.injEq] at hP
      obtain ⟨-, hc, htr⟩ := hP
      by_cases hm : ((st.cur.pos : Int) - (c.pos : Int)) ≠ (rd : Int)
      · right
        rw [← htr, if_pos hm]
        simp
      · left
        rw [← hc]
        omega
  · split at hP
    · simp at hP
    next st tr0 heq =>
      simp only [RRRes.mk.injEq] at hP
      obtain ⟨-, hc, htr⟩ := hP
      by_cases hm : ((st.cur.pos : Int) - (c.pos : Int)) ≠ (rd : Int)
      · right
        rw [← htr, if_pos hm]
        simp
      · left
        rw [← hc]
        omega

lemma adv_parseRR_EDNS {ctx : Ctx} {msg : List Nat} {m : MsgInfo} {c : Cur} {rd : Nat} :
    (parseRR_EDNS ctx msg m c rd).status = true ∧
    (parseRR_EDNS ctx msg m c rd).cur.pos = c.pos + rd := by
  unfold parseRR_EDNS
  dsimp only
  refine ⟨rfl, ?_⟩
  split_ifs <;> try dsimp only
  all_goals omega

lemma adv_parseRR_TXT {ctx : Ctx} {msg : List Nat} {m : MsgInfo} {c : Cur} {rd : Nat} :
    ∀ c' tr, parseRR_TXT ctx msg m c rd = ⟨true, c', tr⟩ → c'.pos = c.pos + rd := by
  intro c' tr hP
  unfold parseRR_TXT at hP
  split at hP
  · simp only [RRRes.mk.injEq] at hP
    obtain ⟨-, hc, -⟩ := hP
    rw [← hc]
  · dsimp only at hP
    simp only [RRRes.mk.injEq] at hP
    obtain ⟨hs, hc, -⟩ := hP
    have h0 : (txtLoop msg c (rd : Int) []).rdlen = 0 := of_decide_eq_true hs
    have spec := (txtLoop_spec msg ((rd : Int)).toNat (rd : Int) le_rfl (by omega) c []).2.2.1
    rw [← hc]
    omega

lemma adv_parseRR_SPF {ctx : Ctx} {msg : List Nat} {m : MsgInfo} {c : Cur} {rd : Nat} :
    ∀ c' tr, parseRR_SPF ctx msg m c rd = ⟨true, c', tr⟩ → c'.pos = c.pos + rd := by
  intro c' tr hP
  unfold parseRR_SPF at hP
  split at hP
  · simp only [RRRes.mk.injEq] at hP
    obtain ⟨-, hc, -⟩ := hP
    rw [← hc]
  · dsimp only at hP
    simp only [RRRes.mk.injEq] at hP
    obtain ⟨hs, hc, -⟩ := hP
    have h0 : (txtLoop msg c (rd : Int) []).rdlen = 0 := of_decide_eq_true hs
    have spec := (txtLoop_spec msg ((rd : Int)).toNat (rd : Int) le_rfl (by omega) c []).2.2.1
    rw [← hc]
    omega

lemma adv_parseRR_CAA {ctx : Ctx} {msg : List Nat} {m : MsgInfo} {c : Cur} {rd : Nat} (h : (rd : Int) ≤ c.len) :
    ∀ c' tr, parseRR_CAA ctx msg m c rd = ⟨true, c', tr⟩ → c'.pos = c.pos + rd := by
  intro c' tr hP
  unfold parseRR_CAA at hP
  split at hP
  · simp only [RRRes.mk.injEq] at hP
    obtain ⟨-, hc, -⟩ := hP
    rw [← hc]
  · dsimp only at hP
    split at hP
    · simp at hP
    · rename_i hguard htag
      simp only [RRRes.mk.injEq] at hP
      obtain ⟨-, hc, -⟩ := hP
      rw [← hc]
      dsimp only
      rw [sliceN_length]
      have h2 : ¬c.len < 2 := by
        intro h2
        have : (0 : Int) ≤ ((extractShort msg c).1 % 256 : Nat) := by positivity
        omega
      rw [extractShort_ge h2] at htag ⊢
      dsimp only at htag ⊢
      omega

lemma adv_nbstat {ctx : Ctx} {msg : List Nat} {m : MsgInfo} {c : Cur} {rd : Nat} (hp : ctx.respPort137 = true) (ha : m.atype = 33) :
    parseRRDispatch ctx msg m c rd = ⟨true, c, []⟩ := by
  simp [parseRRDispatch, ha, hp]

lemma adv_parseRR_WKS {ctx : Ctx} {msg : List Nat} {m : MsgInfo} {c : Cur} {rd : Nat} :
    ∀ c' tr, parseRR_WKS ctx msg m c rd = ⟨true, c', tr⟩ → c'.pos = c.pos + rd := by
  intro c' tr hP
  unfold parseRR_WKS at hP
  simp only [RRRes.mk.injEq] at hP
  obtain ⟨-, hc, -⟩ := hP
  rw [← hc]

lemma adv_parseRR_HINFO {ctx : Ctx} {msg : List Nat} {m : MsgInfo} {c : Cur} {rd : Nat} :
    ∀ c' tr, parseRR_HINFO ctx msg m c rd = ⟨true, c', tr⟩ → c'.pos = c.pos + rd := by
  intro c' tr hP
  unfold parseRR_HINFO at hP
  simp only [RRRes.mk.injEq] at hP
  obtain ⟨-, hc, -⟩ := hP
  rw [← hc]

lemma adv_parseRR_NBS {ctx : Ctx} {msg : List Nat} {m : MsgInfo} {c : Cur} {rd : Nat} :
    ∀ c' tr, parseRR_NBS ctx msg m c rd = ⟨true, c', tr⟩ → c'.pos = c.pos + rd := by
  intro c' tr hP
  unfold parseRR_NBS at hP
  simp only [RRRes.mk.injEq] at hP
  obtain ⟨-, hc, -⟩ := hP
  rw [← hc]

lemma noEnd_weirdOnly {tr : List Ev} (h : weirdOnly tr) : Ev.dnsEnd ∉ tr := by
  intro hm
  obtain ⟨s, hs⟩ := h _ hm
  cases hs

lemma noEnd_append {a b : List Ev} (ha : Ev.dnsEnd ∉ a) (hb : Ev.dnsEnd ∉ b) :
    Ev.dnsEnd ∉ a ++ b := fun h => (List.mem_append.mp h).elim ha hb

lemma noEnd_ite {P : Prop} [Decidable P] {a b : List Ev} (ha : Ev.dnsEnd ∉ a)
    (hb : Ev.dnsEnd ∉ b) : Ev.dnsEnd ∉ (if P then a else b) := by
  split_ifs <;> assumption

/-- The NSEC/NSEC3 bitmap loop emits at most the bitmapLen0 weird. -/
lemma nsecBitmapLoop_evs (msg : List Nat) (w : String) : ∀ k (tbl : Int),
    tbl.toNat ≤ k → ∀ c acc,
    (nsecBitmapLoop msg w c tbl acc).2.2 = [] ∨
    (nsecBitmapLoop msg w c tbl acc).2.2 = [Ev.weird w] := by
  intro k
  induction k with
  | zero =>
    intro tbl hk c acc
    rw [nsecBitmapLoop]
    split
    · rename_i hcond
      obtain ⟨h1, h2⟩ := hcond
      omega
    · exact Or.inl rfl
  | succ k ih =>
    intro tbl hk c acc
    rw [nsecBitmapLoop]
    split
    · rename_i hcond
      dsimp only
      split
      · exact Or.inr rfl
      · rename_i hbm
        exact ih _ (by obtain ⟨h1, h2⟩ := hcond; omega) _ _
    · exact Or.inl rfl

lemma noEnd_nsecLoop {msg w c tbl acc} :
    Ev.dnsEnd ∉ (nsecBitmapLoop msg w c tbl acc).2.2 := by
  rcases nsecBitmapLoop_evs msg w tbl.toNat tbl le_rfl c acc with h | h <;> rw [h] <;> simp

lemma noEnd_extractName {ctx msg st st' tr} (h : extractName ctx msg st = some (st', tr)) :
    Ev.dnsEnd ∉ tr := noEnd_weirdOnly (extractName_weirdOnly h)

lemma noEnd_dnssecAlgoEvs {pre algo} : Ev.dnsEnd ∉ dnssecAlgoEvs pre algo := by
  unfold dnssecAlgoEvs
  split_ifs <;> simp

lemma noEnd_dsDigestEvs {dtype} : Ev.dnsEnd ∉ dsDigestEvs dtype := by
  unfold dsDigestEvs
  split_ifs <;> simp

lemma noEnd_parseRR_A {ctx msg m c rd} : Ev.dnsEnd ∉ (parseRR_A ctx msg m c rd).evs := by
  unfold parseRR_A
  split_ifs <;> simp

lemma noEnd_parseRR_AAAA {ctx msg m c rd} : Ev.dnsEnd ∉ (parseRR_AAAA ctx msg m c rd).evs := by
  unfold parseRR_AAAA
  dsimp only
  split_ifs <;> simp

lemma noEnd_parseRR_Name {ctx msg m c rd} : Ev.dnsEnd ∉ (parseRR_Name ctx msg m c rd).evs := by
  unfold parseRR_Name
  split
  · simp
  next st tr heq =>
    dsimp only
    exact noEnd_append (noEnd_append (noEnd_extractName heq) (noEnd_ite (by simp) (by simp)))
      (by split_ifs <;> simp)

lemma noEnd_parseRR_SOA {ctx msg m c rd} : Ev.dnsEnd ∉ (parseRR_SOA ctx msg m c rd).evs := by
  unfold parseRR_SOA
  split
  · simp
  next st1 tr1 heq1 =>
    split
    · exact noEnd_extractName heq1
    next st2 tr2 heq2 =>
      split
      · exact noEnd_append (noEnd_extractName heq1) (noEnd_extractName heq2)
      · dsimp only
        exact noEnd_append (noEnd_append (noEnd_append (noEnd_extractName heq1)
          (noEnd_extractName heq2)) (noEnd_ite (by simp) (by simp)))
          (noEnd_ite (by simp) (by simp))

lemma noEnd_parseRR_MX {ctx msg m c rd} : Ev.dnsEnd ∉ (parseRR_MX ctx msg m c rd).evs := by
  unfold parseRR_MX
  dsimp only
  split_ifs <;> split <;> try simp
  all_goals
    rename_i st tr heq
    exact noEnd_extractName heq

lemma noEnd_parseRR_NBS {ctx msg m c rd} : Ev.dnsEnd ∉ (parseRR_NBS ctx msg m c rd).evs := by
  simp [parseRR_NBS]

lemma noEnd_parseRR_WKS {ctx msg m c rd} : Ev.dnsEnd ∉ (parseRR_WKS ctx msg m c rd).evs := by
  simp [parseRR_WKS]

lemma noEnd_parseRR_HINFO {ctx msg m c rd} : Ev.dnsEnd ∉ (parseRR_HINFO ctx msg m c rd).evs := by
  simp [parseRR_HINFO]

lemma noEnd_parseRR_SRV {ctx msg m c rd} : Ev.dnsEnd ∉ (parseRR_SRV ctx msg m c rd).evs := by
  unfold parseRR_SRV
  dsimp only
  split_ifs <;> split <;> try simp
  all_goals
    rename_i st tr heq
    exact noEnd_extractName heq

lemma noEnd_parseRR_EDNS {ctx msg m c rd} : Ev.dnsEnd ∉ (parseRR_EDNS ctx msg m c rd).evs := by
  unfold parseRR_EDNS
  dsimp only
  exact noEnd_ite (by simp) (by simp)

lemma noEnd_parseRR_TSIG {ctx msg m c rd} : Ev.dnsEnd ∉ (parseRR_TSIG ctx msg m c rd).evs := by
  unfold parseRR_TSIG
  split
  · simp
  next st tr heq =>
    dsimp only
    exact noEnd_append (noEnd_extractName heq) (noEnd_ite (by simp) (by simp))

lemma noEnd_parseRR_RRSIG {ctx msg m c rd} : Ev.dnsEnd ∉ (parseRR_RRSIG ctx msg m c rd).evs := by
  unfold parseRR_RRSIG
  dsimp only
  split_ifs <;> try simp
  all_goals split <;> try simp
  all_goals
    rename_i st tr heq
    exact ⟨noEnd_extractName heq, noEnd_dnssecAlgoEvs⟩

lemma noEnd_parseRR_DNSKEY {ctx msg m c rd} : Ev.dnsEnd ∉ (parseRR_DNSKEY ctx msg m c rd).evs := by
  unfold parseRR_DNSKEY
  dsimp only
  split_ifs <;> try simp
  all_goals exact noEnd_dnssecAlgoEvs

lemma noEnd_parseRR_NSEC {ctx msg m c rd} : Ev.dnsEnd ∉ (parseRR_NSEC ctx msg m c rd).evs := by
  unfold parseRR_NSEC
  dsimp only
  split_ifs <;> try simp
  all_goals split <;> try simp
  all_goals
    rename_i st tr heq
    exact ⟨noEnd_extractName heq, noEnd_nsecLoop⟩

lemma noEnd_parseRR_NSEC3 {ctx msg m c rd} : Ev.dnsEnd ∉ (parseRR_NSEC3 ctx msg m c rd).evs := by
  unfold parseRR_NSEC3
  dsimp only
  split_ifs <;> try simp
  all_goals exact noEnd_nsecLoop

lemma noEnd_parseRR_DS {ctx msg m c rd} : Ev.dnsEnd ∉ (parseRR_DS ctx msg m c rd).evs := by
  unfold parseRR_DS
  dsimp only
  split_ifs <;> try simp
  all_goals exact noEnd_dsDigestEvs

lemma noEnd_parseRR_TXT {ctx msg m c rd} : Ev.dnsEnd ∉ (parseRR_TXT ctx msg m c rd).evs := by
  unfold parseRR_TXT
  dsimp only
  split_ifs <;> try simp
  all_goals
    rw [(txtLoop_spec msg ((rd : Int)).toNat (rd : Int) le_rfl (by omega) c []).2.2.2]
    split_ifs <;> simp

lemma noEnd_parseRR_SPF {ctx msg m c rd} : Ev.dnsEnd ∉ (parseRR_SPF ctx msg m c rd).evs := by
  unfold parseRR_SPF
  dsimp only
  split_ifs <;> try simp
  all_goals
    rw [(txtLoop_spec msg ((rd : Int)).toNat (rd : Int) le_rfl (by omega) c []).2.2.2]
    split_ifs <;> simp

lemma noEnd_parseRR_CAA {ctx msg m c rd} : Ev.dnsEnd ∉ (parseRR_CAA ctx msg m c rd).evs := by
  unfold parseRR_CAA
  dsimp only
  split_ifs <;> try simp

lemma noEnd_parseRRDispatch {ctx msg m c rd} :
    Ev.dnsEnd ∉ (parseRRDispatch ctx msg m c rd).evs := by
  unfold parseRRDispatch
  by_cases h0 : m.atype = 1
  · rw [if_pos h0]; exact noEnd_parseRR_A
  rw [if_neg h0]
  by_cases h1 : m.atype = 28 ∨ m.atype = 38
  · rw [if_pos h1]; exact noEnd_parseRR_AAAA
  rw [if_neg h1]
  by_cases h2 : m.atype = 2 ∨ m.atype = 5 ∨ m.atype = 12
  · rw [if_pos h2]; exact noEnd_parseRR_Name
  rw [if_neg h2]
  by_cases h3 : m.atype = 6
  · rw [if_pos h3]; exact noEnd_parseRR_SOA
  rw [if_neg h3]
  by_cases h4 : m.atype = 11
  · rw [if_pos h4]; exact noEnd_parseRR_WKS
  rw [if_neg h4]
  by_cases h5 : m.atype = 13
  · rw [if_pos h5]; exact noEnd_parseRR_HINFO
  rw [if_neg h5]
  by_cases h6 : m.atype = 15
  · rw [if_pos h6]; exact noEnd_parseRR_MX
  rw [if_neg h6]
  by_cases h7 : m.atype = 16
  · rw [if_pos h7]; exact noEnd_parseRR_TXT
  rw [if_neg h7]
  by_cases h8 : m.atype = 99
  · rw [if_pos h8]; exact noEnd_parseRR_SPF
  rw [if_neg h8]
  by_cases h9 : m.atype = 257
  · rw [if_pos h9]; exact noEnd_parseRR_CAA
  rw [if_neg h9]
  by_cases h10 : m.atype = 32
  · rw [if_pos h10]; exact noEnd_parseRR_NBS
  rw [if_neg h10]
  by_cases h11 : m.atype = 33
  · rw [if_pos h11]
    by_cases hp : ctx.respPort137 = true
    · rw [if_pos hp]; simp
    · rw [if_neg hp]; exact noEnd_parseRR_SRV
  rw [if_neg h11]
  by_cases h12 : m.atype = 41
  · rw [if_pos h12]; exact noEnd_parseRR_EDNS
  rw [if_neg h12]
  by_cases h13 : m.atype = 250
  · rw [if_pos h13]; exact noEnd_parseRR_TSIG
  rw [if_neg h13]
  by_cases h14 : m.atype = 46
  · rw [if_pos h14]; exact noEnd_parseRR_RRSIG
  rw [if_neg h14]
  by_cases h15 : m.atype = 48
  · rw [if_pos h15]; exact noEnd_parseRR_DNSKEY
  rw [if_neg h15]
  by_cases h16 : m.atype = 47
  · rw [if_pos h16]; exact noEnd_parseRR_NSEC
  rw [if_neg h16]
  by_cases h17 : m.atype = 50
  · rw [if_pos h17]; exact noEnd_parseRR_NSEC3
  rw [if_neg h17]
  by_cases h18 : m.atype = 43
  · rw [if_pos h18]; exact noEnd_parseRR_DS
  rw [if_neg h18]
  dsimp only
  exact noEnd_append (noEnd_ite (by simp) (by simp)) (by simp)

lemma noEnd_parseAnswer {ctx msg m c} : Ev.dnsEnd ∉ (parseAnswer ctx msg m c).evs := by
  unfold parseAnswer
  split
  · simp
  next st tr heq =>
    split
    · exact noEnd_append (noEnd_extractName heq) (by simp)
    · dsimp only
      split
      · exact noEnd_append (noEnd_extractName heq) (by simp)
      · exact noEnd_append (noEnd_extractName heq) noEnd_parseRRDispatch

lemma noEnd_parseAnswersGo {ctx msg} : ∀ n m c,
    Ev.dnsEnd ∉ (parseAnswersGo ctx msg n m c).evs := by
  intro n
  induction n with
  | zero => intro m c; simp [parseAnswersGo]
  | succ n ih =>
    intro m c
    unfold parseAnswersGo
    dsimp only
    split
    · exact noEnd_append noEnd_parseAnswer (ih _ _)
    · exact noEnd_parseAnswer

lemma noEnd_parseAnswers {ctx msg m n atype c} :
    Ev.dnsEnd ∉ (parseAnswers ctx msg m n atype c).evs := noEnd_parseAnswersGo n _ c

lemma noEnd_parseQuestion {ctx msg m c} : Ev.dnsEnd ∉ (parseQuestion ctx msg m c).evs := by
  unfold parseQuestion
  split
  · simp
  next st tr heq =>
    split
    · exact noEnd_append (noEnd_extractName heq) (by simp)
    · dsimp only
      split_ifs <;> try simp
      all_goals exact noEnd_extractName heq

lemma noEnd_parseQuestionsGo {ctx msg m} : ∀ n c,
    Ev.dnsEnd ∉ (parseQuestionsGo ctx msg m n c).evs := by
  intro n
  induction n with
  | zero => intro c; simp [parseQuestionsGo]
  | succ n ih =>
    intro c
    unfold parseQuestionsGo
    dsimp only
    split
    · exact noEnd_append noEnd_parseQuestion (ih _)
    · exact noEnd_parseQuestion

lemma noEnd_parseQuestions {ctx msg m c} :
    Ev.dnsEnd ∉ (parseQuestions ctx msg m c).evs := noEnd_parseQuestionsGo _ c

lemma count_end_endMessage {ctx} :
    (endMessage ctx).count Ev.dnsEnd = if ctx.hEnd = true then 1 else 0 := by
  unfold endMessage
  split_ifs <;> simp_all

/-- `dns_end` appears once (handler registered) in every `ParseMessage` trace
whose input passed the 12-byte header check, and never otherwise. -/
lemma parseMessage_end_count (ctx : Ctx) (fm : Bool) (msg : List Nat) (iq : Nat) :
    ((parseMessage ctx fm msg iq).evs).count Ev.dnsEnd =
      if 12 ≤ msg.length ∧ ctx.hEnd = true then 1 else 0 := by
  have hq : ∀ (a : Ctx) (b : List Nat) (m : MsgInfo) (c : Cur),
      ((parseQuestions a b m c).evs).count Ev.dnsEnd = 0 :=
    fun _ _ _ _ => List.count_eq_zero.mpr noEnd_parseQuestions
  have ha : ∀ (a : Ctx) (b : List Nat) (m : MsgInfo) (n t : Nat) (c : Cur),
      ((parseAnswers a b m n t c).evs).count Ev.dnsEnd = 0 :=
    fun _ _ _ _ _ _ => List.count_eq_zero.mpr noEnd_parseAnswers
  have hi : ∀ (P : Prop) (inst : Decidable P) (n : Nat),
      (List.count Ev.dnsEnd (if P then [Ev.dnsMessage n] else [])) = 0 := by
    intro P inst n
    split <;> simp
  unfold parseMessage
  split
  next hlen =>
    rw [if_neg (by omega)]
    simp
  next hlen =>
    have hmain : (if 12 ≤ msg.length ∧ ctx.hEnd = true then 1 else 0) =
        (if ctx.hEnd = true then 1 else 0) := by
      have h12 : 12 ≤ msg.length := by omega
      split_ifs <;> simp_all
    rw [hmain]
    dsimp only
    split
    next hflip =>
      split
      · simp [List.count_append, List.count_cons, List.count_nil, hi, hq, ha, count_end_endMessage]
      split
      · simp [List.count_append, List.count_cons, List.count_nil, hi, hq, ha, count_end_endMessage]
      split
      · simp [List.count_append, List.count_cons, List.count_nil, hi, hq, ha, count_end_endMessage]
      split
      · simp [List.count_append, List.count_cons, List.count_nil, hi, hq, ha, count_end_endMessage]
      split
      · simp [List.count_append, List.count_cons, List.count_nil, hi, hq, ha, count_end_endMessage]
      split
      · simp [List.count_append, List.count_cons, List.count_nil, hi, hq, ha, count_end_endMessage]
      simp [List.count_append, List.count_cons, List.count_nil, hi, hq, ha, count_end_endMessage]
    next hflip =>
      split
      · simp [List.count_append, List.count_cons, List.count_nil, hi, hq, ha, count_end_endMessage]
      split
      · simp [List.count_append, List.count_cons, List.count_nil, hi, hq, ha, count_end_endMessage]
      split
      · simp [List.count_append, List.count_cons, List.count_nil, hi, hq, ha, count_end_endMessage]
      split
      · simp [List.count_append, List.count_cons, List.count_nil, hi, hq, ha, count_end_endMessage]
      split
      · simp [List.count_append, List.count_cons, List.count_nil, hi, hq, ha, count_end_endMessage]
      split
      · simp [List.count_append, List.count_cons, List.count_nil, hi, hq, ha, count_end_endMessage]
      simp [List.count_append, List.count_cons, List.count_nil, hi, hq, ha, count_end_endMessage]

/-- Claim C3 (amended): for the RR dispatch branches whose parser ties
consumption to `rdlength` — A, NS/CNAME/PTR, SOA, WKS, HINFO, MX, TXT,
SPF, CAA, NBS, SRV on a non-NetBIOS connection, and EDNS — a successful
parse leaves the cursor exactly `rdlength` bytes past the record prelude,
or else emits the `DNS_RR_length_mismatch` weird notice.  (The original
claim's "all dispatch branches, including the SRV/NBSTAT branch" is
refuted by `nbstat_consumes_nothing`.)  The hypothesis `rdlength ≤ len`
is the guard `ParseAnswer` establishes before dispatching. -/
theorem rr_consumes_rdlength_or_mismatch {ctx : Ctx} {msg : List Nat} {m : MsgInfo}
    {c : Cur} {rd : Nat} (h : (rd : Int) ≤ c.len)
    (ht : m.atype = 1 ∨ m.atype = 2 ∨ m.atype = 5 ∨ m.atype = 12 ∨ m.atype = 6 ∨
      m.atype = 11 ∨ m.atype = 13 ∨ m.atype = 15 ∨ m.atype = 16 ∨ m.atype = 99 ∨
      m.atype = 257 ∨ m.atype = 32 ∨ (m.atype = 33 ∧ ctx.respPort137 = false) ∨
      m.atype = 41) :
    ∀ c' tr, parseRRDispatch ctx msg m c rd = ⟨true, c', tr⟩ →
      c'.pos = c.pos + rd ∨ Ev.weird "DNS_RR_length_mismatch" ∈ tr := by
  intro c' tr hP
  unfold parseRRDispatch at hP
  rcases ht with ha|ha|ha|ha|ha|ha|ha|ha|ha|ha|ha|ha|⟨ha, hp⟩|ha
  · rw [ha] at hP
    norm_num at hP
    exact Or.inl (adv_parseRR_A h c' tr hP)
  · rw [ha] at hP
    norm_num at hP
    exact adv_parseRR_Name c' tr hP
  · rw [ha] at hP
    norm_num at hP
    exact adv_parseRR_Name c' tr hP
  · rw [ha] at hP
    norm_num at hP
    exact adv_parseRR_Name c' tr hP
  · rw [ha] at hP
    norm_num at hP
    exact adv_parseRR_SOA c' tr hP
  · rw [ha] at hP
    norm_num at hP
    exact Or.inl (adv_parseRR_WKS c' tr hP)
  · rw [ha] at hP
    norm_num at hP
    exact Or.inl (adv_parseRR_HINFO c' tr hP)
  · rw [ha] at hP
    norm_num at hP
    exact adv_parseRR_MX c' tr hP
  · rw [ha] at hP
    norm_num at hP
    exact Or.inl (adv_parseRR_TXT c' tr hP)
  · rw [ha] at hP
    norm_num at hP
    exact Or.inl (adv_parseRR_SPF c' tr hP)
  · rw [ha] at hP
    norm_num at hP
    exact Or.inl (adv_parseRR_CAA h c' tr hP)
  · rw [ha] at hP
    norm_num at hP
    exact Or.inl (adv_parseRR_NBS c' tr hP)
  · rw [ha, hp] at hP
    norm_num at hP
    exact adv_parseRR_SRV c' tr hP
  · rw [ha] at hP
    norm_num at hP
    left
    have hE := (@adv_parseRR_EDNS ctx msg m c rd).2
    rw [hP] at hE
    exact hE

/-- Witness for C3: a 4-byte A record at cursor `⟨0, 4⟩` parses and lands
exactly `rdlength = 4` bytes further. -/
theorem rr_consumes_rdlength_or_mismatch_witness :
    (Cur.mk 4 0).pos = (Cur.mk 0 4).pos + 4 ∨
      Ev.weird "DNS_RR_length_mismatch" ∈ [Ev.rrEvent "dns_A_reply"] :=
  @rr_consumes_rdlength_or_mismatch ctxAll [9, 9, 9, 9] mQuery ⟨0, 4⟩ 4 (by decide)
    (by decide) ⟨4, 0⟩ [Ev.rrEvent "dns_A_reply"] (by decide)

/-- Counterexample to C3 as stated: on a port-137 connection the NBSTAT
branch of the dispatch succeeds without consuming any rdata and without
emitting `DNS_RR_length_mismatch` — here the record prelude of `msgNB`
ends at position 23 with `rdlength = 2`, yet `ParseAnswer` succeeds with
the cursor still at 23 and an empty trace. -/
theorem nbstat_consumes_nothing :
    (parseAnswer ctx137 msgNB (msgInfoOfHeader msgNB 0) ⟨12, 13⟩).status = true ∧
    (extractShort msgNB ⟨21, 4⟩).1 = 2 ∧
    (parseAnswer ctx137 msgNB (msgInfoOfHeader msgNB 0) ⟨12, 13⟩).cur = ⟨23, 2⟩ ∧
    (parseAnswer ctx137 msgNB (msgInfoOfHeader msgNB 0) ⟨12, 13⟩).evs = [] ∧
    (23 : Nat) ≠ 23 + 2 := by
  refine ⟨by decide, by decide, by decide, by decide, by decide⟩

/-- Claim C1: label decoding terminates on every input.  Compression
pointers are followed only strictly backwards, so `stEnd` decreases and
the fuel bound `nameNeed (stEnd st)` always suffices: `extractName` — the
fuel-indexed decoder at that bound, which is how every parser calls it —
returns a result (`none` is the out-of-fuel outcome, and it never
happens) for every buffer, state and context. -/
theorem extractName_total (ctx : Ctx) (msg : List Nat) (st : NState) :
    (extractName ctx msg st).isSome = true :=
  (extract_isSome (stEnd st) ctx msg).2.2 st le_rfl _ le_rfl

/-- Claim C2: no field reader derives its result from bytes beyond the
declared remaining length, and none drives the remaining length negative.
If two buffers agree on the `len` bytes the cursor declares (they may
differ arbitrarily beyond), every reader returns identical results; the
u16/u32 readers produce 0 unless 2/4 bytes remain; and starting from a
non-negative remaining length, no reader's output length is negative. -/
theorem field_readers_window_safe (msg1 msg2 : List Nat) (c : Cur) (l : Int)
    (h0 : 0 ≤ c.len)
    (hag : ∀ i : Nat, (i : Int) < c.len → byteAt msg1 (c.pos + i) = byteAt msg2 (c.pos + i)) :
    extractShort msg1 c = extractShort msg2 c ∧
    extractLong msg1 c = extractLong msg2 c ∧
    extractOctets msg1 c = extractOctets msg2 c ∧
    extractStream msg1 c l = extractStream msg2 c l ∧
    (c.len < 2 → (extractShort msg1 c).1 = 0) ∧
    (c.len < 4 → (extractLong msg1 c).1 = 0) ∧
    0 ≤ (extractShort msg1 c).2.len ∧
    0 ≤ (extractLong msg1 c).2.len ∧
    0 ≤ (extractOctets msg1 c).2.len ∧
    0 ≤ (extractStream msg1 c l).2.len :=
  ⟨extractShort_agree hag, extractLong_agree hag, extractOctets_agree h0 hag,
   extractStream_agree l hag,
   fun h => by rw [extractShort_lt h],
   fun h => by rw [extractLong_lt h],
   extractShort_nonneg h0, extractLong_nonneg h0,
   extractOctets_nonneg h0, extractStream_nonneg l h0⟩

/-- Witness for C2: two buffers agreeing on the three declared bytes but
differing beyond them. -/
theorem field_readers_window_safe_witness :
    extractShort [1, 2, 3, 250] (Cur.mk 0 3) = extractShort [1, 2, 3] (Cur.mk 0 3) ∧
    extractLong [1, 2, 3, 250] (Cur.mk 0 3) = extractLong [1, 2, 3] (Cur.mk 0 3) ∧
    extractOctets [1, 2, 3, 250] (Cur.mk 0 3) = extractOctets [1, 2, 3] (Cur.mk 0 3) ∧
    extractStream [1, 2, 3, 250] (Cur.mk 0 3) 5 = extractStream [1, 2, 3] (Cur.mk 0 3) 5 ∧
    ((Cur.mk 0 3 : Cur).len < 2 → (extractShort [1, 2, 3, 250] (Cur.mk 0 3)).1 = 0) ∧
    ((Cur.mk 0 3 : Cur).len < 4 → (extractLong [1, 2, 3, 250] (Cur.mk 0 3)).1 = 0) ∧
    0 ≤ (extractShort [1, 2, 3, 250] (Cur.mk 0 3)).2.len ∧
    0 ≤ (extractLong [1, 2, 3, 250] (Cur.mk 0 3)).2.len ∧
    0 ≤ (extractOctets [1, 2, 3, 250] (Cur.mk 0 3)).2.len ∧
    0 ≤ (extractStream [1, 2, 3, 250] (Cur.mk 0 3) 5).2.len :=
  field_readers_window_safe [1, 2, 3, 250] [1, 2, 3] ⟨0, 3⟩ 5 (by decide)
    (fun i hi => by
      have h3 : i < 3 := by
        have hi3 : (i : Int) < 3 := hi
        exact_mod_cast hi3
      interval_cases i <;> rfl)

/-- Claim C5 (amended): on short input `ExtractShort`/`ExtractLong`
return 0 and leave the cursor untouched — they do *not* advance by the
bytes that were available (see `short_input_does_not_advance`). -/
theorem short_input_returns_zero_cursor_unchanged (msg : List Nat) (c : Cur) :
    (c.len < 2 → extractShort msg c = (0, c)) ∧
    (c.len < 4 → extractLong msg c = (0, c)) :=
  ⟨fun h => extractShort_lt h, fun h => extractLong_lt h⟩

/-- Witness for C5: one available byte, cursor reported back unchanged. -/
theorem short_input_returns_zero_cursor_unchanged_witness :
    extractShort [171] (Cur.mk 0 1) = (0, Cur.mk 0 1) ∧
    extractLong [171] (Cur.mk 0 1) = (0, Cur.mk 0 1) :=
  ⟨(short_input_returns_zero_cursor_unchanged [171] ⟨0, 1⟩).1 (by decide),
   (short_input_returns_zero_cursor_unchanged [171] ⟨0, 1⟩).2 (by decide)⟩

/-- Counterexample to C5 as stated: with one byte available the claim
predicts the cursor advances by one; in fact `ExtractShort` does not
advance at all (the `data += 2; len -= 2` lines sit after the early
`return 0`). -/
theorem short_input_does_not_advance :
    (extractShort [171] (Cur.mk 0 1)).1 = 0 ∧
    (extractShort [171] (Cur.mk 0 1)).2.pos ≠ 0 + 1 ∧
    (extractLong [171, 172, 173] (Cur.mk 0 3)).2.pos ≠ 0 + 3 := by
  refine ⟨by decide, by decide, by decide⟩

/-- Claim C8: with the `dns_end` handler registered, every `ParseMessage`
call on a buffer of at least the 12 header bytes emits `dns_end` exactly
once, on every exit path; a shorter buffer emits none. -/
theorem dns_end_exactly_once (ctx : Ctx) (fm : Bool) (msg : List Nat) (iq : Nat)
    (h : ctx.hEnd = true) :
    ((parseMessage ctx fm msg iq).evs).count Ev.dnsEnd =
      if 12 ≤ msg.length then 1 else 0 := by
  rw [parseMessage_end_count]
  split_ifs <;> simp_all

/-- Witness for C8 on the concrete forward-pointer message. -/
theorem dns_end_exactly_once_witness :
    ((parseMessage ctxAll true msgFwd 1).evs).count Ev.dnsEnd =
      if 12 ≤ msgFwd.length then 1 else 0 :=
  dns_end_exactly_once ctxAll true msgFwd 1 rfl

/-- Claim C4 (amended): a compression pointer whose 14-bit offset is not
strictly below the pointer's own position makes `ExtractLabel` emit
`DNS_label_forward_compress_offset` and *stop the label loop normally*
(returning `false` with the cursor advanced past the two pointer bytes) —
it is not a parse failure, so `ParseMessage` can still return success
(see `forward_pointer_message_still_succeeds`); `dns_end` is still
emitted either way. -/
theorem forward_pointer_weird_nonfatal (f : Nat) (ctx : Ctx) (msg : List Nat) (st : NState)
    (h2 : 1 < st.cur.len)
    (h3 : byteAt msg st.cur.pos &&& 192 = 192)
    (h4 : st.cur.pos ≤ (byteAt msg st.cur.pos &&& 63) * 256 + byteAt msg (st.cur.pos + 1)) :
    extractLabelF (f + 1) ctx msg st =
      some (false, ⟨⟨st.cur.pos + 1 + 1, st.cur.len - 1 - 1⟩, st.name, st.nameLen⟩,
            [Ev.weird "DNS_label_forward_compress_offset"]) := by
  have hz : ¬byteAt msg st.cur.pos = 0 := by
    intro h0
    rw [h0] at h3
    simp at h3
  unfold extractLabelF
  rw [if_neg (by omega)]
  dsimp only
  rw [if_neg (by omega), if_neg hz, if_pos h3, if_pos h4]

/-- Witness for C4: the pointer `c0 20` at position 12 of `msgFwd`. -/
theorem forward_pointer_weird_nonfatal_witness :
    extractLabelF 6 ctxAll msgFwd ⟨⟨12, 6⟩, [], 512⟩ =
      some (false, ⟨⟨12 + 1 + 1, 6 - 1 - 1⟩, [], 512⟩,
            [Ev.weird "DNS_label_forward_compress_offset"]) :=
  forward_pointer_weird_nonfatal 5 ctxAll msgFwd ⟨⟨12, 6⟩, [], 512⟩
    (by decide) (by decide) (by decide)

/-- Counterexample to C4 as stated: on `msgFwd` the forward-pointer weird
notice is emitted and `dns_end` fires, but `ParseMessage` returns success,
not 0 — the decoded (empty) name and the remaining bytes still parse as a
question. -/
theorem forward_pointer_message_still_succeeds :
    (parseMessage ctxAll true msgFwd 1).ret = true ∧
    Ev.weird "DNS_label_forward_compress_offset" ∈ (parseMessage ctxAll true msgFwd 1).evs ∧
    ((parseMessage ctxAll true msgFwd 1).evs).count Ev.dnsEnd = 1 := by
  refine ⟨by decide, by decide, by decide⟩

/-- Claim C6 (amended): when the header parses and `qdcount` exceeds a
positive `dns_max_queries`, `ParseMessage` emits the
`DNS_Conn_count_too_large` weird notice and protocol violation plus
`dns_end`, parses no question or answer records (the trace is exactly the
optional `dns_message` event followed by those diagnostics), and returns
*failure* — not the success value the spec promises (see
`qdcount_ceiling_returns_failure`). -/
theorem qdcount_ceiling_rejects (ctx : Ctx) (fm : Bool) (msg : List Nat) (iq : Nat)
    (hlen : ¬msg.length < 12)
    (hmax : 0 < ctx.dnsMaxQueries)
    (hq : ctx.dnsMaxQueries < (msgInfoOfHeader msg iq).qdcount) :
    (parseMessage ctx fm msg iq).ret = false ∧
    (parseMessage ctx fm msg iq).evs =
      (if ctx.hMessage then
        [Ev.dnsMessage
          (if fm = true ∧ (msgInfoOfHeader msg iq).QR = true ∧ iq = 1 then 0 else iq)]
       else []) ++
      [Ev.protocolViolation "DNS_Conn_count_too_large",
       Ev.weird "DNS_Conn_count_too_large"] ++ endMessage ctx := by
  unfold parseMessage
  rw [if_neg hlen]
  dsimp only
  rw [if_pos ⟨hmax, by split <;> exact hq⟩]
  exact ⟨rfl, rfl⟩

/-- Witness for C6: ceiling 25 against a header declaring 26 questions. -/
theorem qdcount_ceiling_rejects_witness :
    (parseMessage ctxCap true msgCap 1).ret = false ∧
    (parseMessage ctxCap true msgCap 1).evs =
      (if ctxCap.hMessage then
        [Ev.dnsMessage
          (if true = true ∧ (msgInfoOfHeader msgCap 1).QR = true ∧ 1 = 1 then 0 else 1)]
       else []) ++
      [Ev.protocolViolation "DNS_Conn_count_too_large",
       Ev.weird "DNS_Conn_count_too_large"] ++ endMessage ctxCap :=
  qdcount_ceiling_rejects ctxCap true msgCap 1 (by decide) (by decide) (by decide)

/-- Counterexample to C6 as stated: the ceiling path returns 0, i.e. the
failure value — `return 0` follows the `EndMessage(msg)` call — not the
success value. -/
theorem qdcount_ceiling_returns_failure :
    (parseMessage ctxCap true msgCap 1).ret = false ∧
    Ev.weird "DNS_Conn_count_too_large" ∈ (parseMessage ctxCap true msgCap 1).evs := by
  refine ⟨by decide, by decide⟩

/-- Claim C7 (amended): *every* successfully parsed question — not just
the first — emits exactly one dispatch event (`dns_request`,
`dns_rejected` or `dns_query_reply` according to the QR bit and the RR
counts) whenever the selected handler is registered and the section is
not skipped, and none otherwise; the name decoder itself contributes no
dispatch events.  A message with `qdcount = 2` therefore emits two such
events (see `second_question_also_emits`). -/
lemma parseQuestion_eq_none {ctx : Ctx} {msg : List Nat} {m : MsgInfo} {c : Cur}
    (hx : extractName ctx msg ⟨c, [], 512⟩ = none) :
    parseQuestion ctx msg m c = ⟨false, c, []⟩ := by
  unfold parseQuestion
  rw [hx]

lemma parseQuestion_eq_some {ctx : Ctx} {msg : List Nat} {m : MsgInfo} {c : Cur}
    {st : NState} {tr : List Ev}
    (hx : extractName ctx msg ⟨c, [], 512⟩ = some (st, tr)) :
    parseQuestion ctx msg m c =
      (if st.cur.len < 4 then
        ⟨false, st.cur, tr ++ [Ev.weird "DNS_truncated_quest_too_short"]⟩
       else
         if (if m.QR = false then ctx.hRequest
             else if m.QR = true ∧ m.ancount = 0 ∧ m.nscount = 0 ∧ m.arcount = 0 then
               ctx.hRejected
             else ctx.hQueryReply) = true ∧ m.skipEvent = false then
           ⟨true, (extractShort msg (extractShort msg st.cur).2).2,
            tr ++ [if m.QR = false then
                     Ev.dnsRequest st.name (extractShort msg st.cur).1
                       (extractShort msg (extractShort msg st.cur).2).1
                   else if m.QR = true ∧ m.ancount = 0 ∧ m.nscount = 0 ∧ m.arcount = 0 then
                     Ev.dnsRejected st.name (extractShort msg st.cur).1
                       (extractShort msg (extractShort msg st.cur).2).1
                   else
                     Ev.dnsQueryReply st.name (extractShort msg st.cur).1
                       (extractShort msg (extractShort msg st.cur).2).1]⟩
         else ⟨true, (extractShort msg (extractShort msg st.cur).2).2, tr⟩) := by
  unfold parseQuestion
  rw [hx]

theorem every_question_emits_event {ctx : Ctx} {msg : List Nat} {m : MsgInfo} {c : Cur}
    (h : (parseQuestion ctx msg m c).status = true) :
    ((parseQuestion ctx msg m c).evs).countP isQEv =
      if ((if m.QR = false then ctx.hRequest
           else if m.QR = true ∧ m.ancount = 0 ∧ m.nscount = 0 ∧ m.arcount = 0 then
             ctx.hRejected
           else ctx.hQueryReply) = true ∧ m.skipEvent = false) then 1 else 0 := by
  cases hx : extractName ctx msg ⟨c, [], 512⟩ with
  | none =>
    rw [parseQuestion_eq_none hx] at h
    simp at h
  | some r =>
    obtain ⟨st, tr⟩ := r
    rw [parseQuestion_eq_some hx] at h ⊢
    have htr : tr.countP isQEv = 0 := weirdOnly_count_q (extractName_weirdOnly hx)
    split at h
    · simp at h
    next hlen =>
    rw [if_neg hlen]
    by_cases hcond : (if m.QR = false then ctx.hRequest
        else if m.QR = true ∧ m.ancount = 0 ∧ m.nscount = 0 ∧ m.arcount = 0 then
          ctx.hRejected
        else ctx.hQueryReply) = true ∧ m.skipEvent = false
    · rw [if_pos hcond, if_pos hcond]
      dsimp only
      rw [List.countP_append, htr]
      split_ifs <;> rfl
    · rw [if_neg hcond, if_neg hcond]
      dsimp only
      exact htr

/-- Witness for C7: the first question of `msgTwoQ` emits its one
`dns_request` event. -/
theorem every_question_emits_event_witness :
    ((parseQuestion ctxAll msgTwoQ mQuery ⟨12, 10⟩).evs).countP isQEv = 1 := by
  have hw := @every_question_emits_event ctxAll msgTwoQ mQuery ⟨12, 10⟩ (by decide)
  rw [hw]
  decide

/-- Counterexample to C7 as stated: with `qdcount = 2` both questions of
`msgTwoQ` emit a `dns_request` event — the source re-evaluates the event
dispatch inside `ParseQuestion` for every question, it does not restrict
it to the first. -/
theorem second_question_also_emits :
    ((parseMessage ctxAll true msgTwoQ 0).evs).countP isQEv = 2 := by decide

lemma parseMessage_flip_iff (ctx : Ctx) (fm : Bool) (msg : List Nat) (iq : Nat) :
    ((parseMessage ctx fm msg iq).flip = true ↔
      12 ≤ msg.length ∧ fm = true ∧ (msgInfoOfHeader msg iq).QR = true ∧ iq = 1 ∧
        ctx.respMulticast = false) ∧
    ((parseMessage ctx fm msg iq).fmAfter = true ↔ fm = true ∧ msg.length < 12) := by
  unfold parseMessage
  split
  next hlen =>
    refine ⟨⟨fun h => absurd h (by simp), fun h => absurd h.1 (by omega)⟩,
            ⟨fun h => ⟨h, hlen⟩, fun h => h.1⟩⟩
  next hlen =>
    dsimp only
    have h12 : 12 ≤ msg.length := by omega
    constructor
    · simp only [apply_ite PMOut.flip, ite_self]
      simp only [decide_eq_true_eq]
      constructor
      · rintro ⟨⟨a, b, c⟩, d⟩
        exact ⟨h12, a, b, c, d⟩
      · rintro ⟨-, a, b, c, d⟩
        exact ⟨⟨a, b, c⟩, d⟩
    · simp only [apply_ite PMOut.fmAfter, ite_self]
      exact ⟨fun h => absurd h (by simp), fun h => absurd h.2 (by omega)⟩

lemma runMessages_false_no_flip (ctx : Ctx) :
    ∀ msgs, (runMessages ctx false msgs).count true = 0 := by
  intro msgs
  induction msgs with
  | nil => rfl
  | cons p rest IH =>
    obtain ⟨msg, iq⟩ := p
    have hflip : (parseMessage ctx false msg iq).flip = false := by
      cases hf : (parseMessage ctx false msg iq).flip
      · rfl
      · have := ((parseMessage_flip_iff ctx false msg iq).1.mp hf).2.1
        exact absurd this (by simp)
    have hfm : (parseMessage ctx false msg iq).fmAfter = false := by
      cases hf : (parseMessage ctx false msg iq).fmAfter
      · rfl
      · have := ((parseMessage_flip_iff ctx false msg iq).2.mp hf).1
        exact absurd this (by simp)
    show ((parseMessage ctx false msg iq).flip ::
      runMessages ctx (parseMessage ctx false msg iq).fmAfter rest).count true = 0
    rw [hflip, hfm]
    simp [List.count_cons, IH]

lemma runMessages_count_le_one (ctx : Ctx) :
    ∀ msgs fm, (runMessages ctx fm msgs).count true ≤ 1 := by
  intro msgs
  induction msgs with
  | nil => intro fm; simp [runMessages]
  | cons p rest IH =>
    intro fm
    obtain ⟨msg, iq⟩ := p
    show ((parseMessage ctx fm msg iq).flip ::
      runMessages ctx (parseMessage ctx fm msg iq).fmAfter rest).count true ≤ 1
    cases hf : (parseMessage ctx fm msg iq).flip
    · have hz : (if ((false : Bool) == true) = true then 1 else 0) = 0 := by simp
      rw [List.count_cons, hz]
      have := IH (parseMessage ctx fm msg iq).fmAfter
      omega
    · have h12 := ((parseMessage_flip_iff ctx fm msg iq).1.mp hf).1
      have hfm : (parseMessage ctx fm msg iq).fmAfter = false := by
        cases hx : (parseMessage ctx fm msg iq).fmAfter
        · rfl
        · have := ((parseMessage_flip_iff ctx fm msg iq).2.mp hx).2
          omega
      rw [hfm, List.count_cons, runMessages_false_no_flip]
      simp

/-- Claim C9 (amended): the role flip does trigger at most once per
connection — a flip needs `first_message` still set and a full header,
and any message with a full header clears `first_message` — but not
necessarily on the first delivered message: `first_message` survives a
short (< 12 byte) first datagram, so a later message can still flip (see
`role_flip_not_only_first`).  The flip fires exactly when the message
has a full header, `first_message` is set, the QR bit says response,
the caller said query, and the responder is not multicast. -/
theorem role_flip_at_most_once (ctx : Ctx) (msgs : List (List Nat × Nat)) :
    ((runMessages ctx true msgs).count true ≤ 1) ∧
    (∀ fm msg iq, (parseMessage ctx fm msg iq).flip = true ↔
      12 ≤ msg.length ∧ fm = true ∧ (msgInfoOfHeader msg iq).QR = true ∧ iq = 1 ∧
        ctx.respMulticast = false) :=
  ⟨runMessages_count_le_one ctx msgs true,
   fun fm msg iq => (parseMessage_flip_iff ctx fm msg iq).1⟩

/-- Counterexample to C9 as stated: a short first datagram does not clear
`first_message` (the `len < 12` path returns before the flip logic and
before `first_message = false`), so the *second* message of this
connection triggers the flip. -/
theorem role_flip_not_only_first :
    runMessages ctxAll true [([], 1), (hdrResp, 1)] = [false, true] := by decide

/-- Claim C10 (amended): when the TXT loop hits a character string whose
declared length exceeds the remaining rdata, `ParseRR_TXT` (handler
registered, section not skipped) emits `DNS_TXT_char_str_past_rdlen` and
still emits `dns_TXT_reply` carrying the strings collected before the
malformed one — but it does *not* always return failure: the return value
is success exactly when the remaining-rdlen counter reached 0, which can
happen together with the weird notice when the offending length byte is
the last rdata byte (see `txt_weird_can_succeed`). -/
theorem txt_weird_still_emits_reply {ctx : Ctx} {msg : List Nat} {m : MsgInfo} {c : Cur}
    {rd : Nat} (hh : ctx.hTXT = true) (hs : m.skipEvent = false)
    (hw : txtHitsWeird msg c (rd : Int) = true) :
    (parseRR_TXT ctx msg m c rd).evs =
      [Ev.weird "DNS_TXT_char_str_past_rdlen",
       Ev.dnsTXTReply (txtLoop msg c (rd : Int) []).strs] ∧
    ((parseRR_TXT ctx msg m c rd).status = true ↔
      (txtLoop msg c (rd : Int) []).rdlen = 0) := by
  unfold parseRR_TXT
  rw [if_neg (by simp [hh, hs])]
  dsimp only
  have hspec := (txtLoop_spec msg ((rd : Int)).toNat (rd : Int) le_rfl (by positivity) c []).2.2.2
  rw [hspec, if_pos hw, hh]
  constructor
  · simp
  · simp

/-- Witness for C10: a single rdata byte `05` declaring a 5-byte string. -/
theorem txt_weird_still_emits_reply_witness :
    (parseRR_TXT ctxAll [5] mTXT ⟨0, 1⟩ 1).evs =
      [Ev.weird "DNS_TXT_char_str_past_rdlen",
       Ev.dnsTXTReply (txtLoop [5] ⟨0, 1⟩ ((1 : Nat) : Int) []).strs] ∧
    ((parseRR_TXT ctxAll [5] mTXT ⟨0, 1⟩ 1).status = true ↔
      (txtLoop [5] ⟨0, 1⟩ ((1 : Nat) : Int) []).rdlen = 0) := by
  have hw : txtHitsWeird [5] (⟨0, 1⟩ : Cur) ((1 : Nat) : Int) = true := by
    rw [txtHitsWeird]
    decide
  exact @txt_weird_still_emits_reply ctxAll [5] mTXT ⟨0, 1⟩ 1 (by decide) (by decide) hw

/-- Counterexample to C10 as stated: on rdata `[05]` with `rdlength = 1`
the length byte itself exhausts the rdata, the past-rdlen weird notice is
emitted, the (empty) `dns_TXT_reply` event fires — and `ParseRR_TXT`
returns success, not failure: the loop result's remaining rdlen is 0, and
the source's return value is `rdlength == 0`, independent of how the loop
ended. -/
theorem txt_weird_can_succeed :
    (parseRR_TXT ctxAll [5] mTXT ⟨0, 1⟩ 1).status = true ∧
    Ev.weird "DNS_TXT_char_str_past_rdlen" ∈ (parseRR_TXT ctxAll [5] mTXT ⟨0, 1⟩ 1).evs := by
  have hE : extractCharString [5] (⟨0, 1⟩ : Cur) ((1 : Nat) : Int) =
      ⟨none, ⟨1, 0⟩, 0, [Ev.weird "DNS_TXT_char_str_past_rdlen"]⟩ := by decide
  have hl : txtLoop [5] (⟨0, 1⟩ : Cur) ((1 : Nat) : Int) [] =
      ⟨⟨1, 0⟩, 0, [], [Ev.weird "DNS_TXT_char_str_past_rdlen"]⟩ := by
    rw [txtLoop, hE]
  constructor
  · show (parseRR_TXT ctxAll [5] mTXT ⟨0, 1⟩ 1).status = true
    unfold parseRR_TXT
    rw [if_neg (by decide)]
    dsimp only
    rw [hl]
    rfl
  · show Ev.weird "DNS_TXT_char_str_past_rdlen" ∈ (parseRR_TXT ctxAll [5] mTXT ⟨0, 1⟩ 1).evs
    unfold parseRR_TXT
    rw [if_neg (by decide)]
    dsimp only
    rw [hl]
    simp

end DNS
